import Mathlib

/-!
Verification model of the System-Config-Synchronizer package reconciliation
engine (src/main.rs, src/package_synchronizer.rs).

Modelling conventions:
* Package names are Lean `String`s; the Rust byte-wise `Ord` on `String`
  corresponds to the lexicographic order on the Unicode scalar values
  (UTF-8 byte order and code-point order agree), implemented below as
  `charListLt`/`strLt`/`strLe` by structural recursion so that the kernel
  can evaluate comparisons on concrete inputs.
* External subprocess execution is a collaborator, modelled by an `Env`
  oracle; every external interaction of a run is recorded in an ordered
  trace of `Event`s (commands run, queries issued, lines printed).
* Rust `Vec<String>` is `List String`; `slice::binary_search` is
  implemented with the same interval arithmetic as the Rust standard
  library, with an explicit fuel argument making the recursion structural.
-/

/-- Lexicographic strict order on lists of characters; this is the order
underlying Rust's `Ord for String` (byte-wise comparison of UTF-8 data,
which coincides with code-point-wise comparison). -/
def charListLt : List Char → List Char → Bool
  | [], [] => false
  | [], _ :: _ => true
  | _ :: _, [] => false
  | a :: as, b :: bs => if a < b then true else if b < a then false else charListLt as bs

/-- Strict order on strings as compared by Rust's `sort_unstable` and
`binary_search` on `Vec<String>`. -/
def strLt (a b : String) : Bool := charListLt a.data b.data

/-- Reflexive order on strings, derived from `strLt`. -/
def strLe (a b : String) : Bool := ! strLt b a

theorem charListLt_irrefl (l : List Char) : charListLt l l = false := by
  induction l with
  | nil => rfl
  | cons a as ih => simp [charListLt, ih]

theorem charListLt_trans : ∀ {a b c : List Char}, charListLt a b = true →
    charListLt b c = true → charListLt a c = true := by
  intro a
  induction a with
  | nil =>
    intro b c h1 h2
    cases b with
    | nil => simp [charListLt] at h1
    | cons y ys =>
      cases c with
      | nil => simp [charListLt] at h2
      | cons z zs => simp [charListLt]
  | cons x xs ih =>
    intro b c h1 h2
    cases b with
    | nil => simp [charListLt] at h1
    | cons y ys =>
      cases c with
      | nil => simp [charListLt] at h2
      | cons z zs =>
        simp only [charListLt] at h1 h2 ⊢
        rcases lt_trichotomy x y with hxy | hxy | hxy
        · rcases lt_trichotomy y z with hyz | hyz | hyz
          · simp [lt_trans hxy hyz]
          · subst hyz; simp [hxy]
          · simp [not_lt_of_gt hyz, hyz] at h2
        · subst hxy
          rcases lt_trichotomy x z with hyz | hyz | hyz
          · simp [hyz]
          · subst hyz
            simp only [lt_irrefl, if_false] at h1 h2 ⊢
            exact ih h1 h2
          · simp [not_lt_of_gt hyz, hyz] at h2
        · simp [not_lt_of_gt hxy, hxy] at h1

theorem charListLt_tri (a b : List Char) :
    charListLt a b = true ∨ charListLt b a = true ∨ a = b := by
  induction a generalizing b with
  | nil => cases b <;> simp [charListLt]
  | cons x xs ih =>
    cases b with
    | nil => simp [charListLt]
    | cons y ys =>
      rcases lt_trichotomy x y with h | h | h
      · left; simp [charListLt, h]
      · subst h
        rcases ih ys with h2 | h2 | h2
        · left; simp [charListLt, h2]
        · right; left; simp [charListLt, h2]
        · right; right; simp [h2]
      · right; left; simp [charListLt, h]

theorem str_data_eq {a b : String} (h : a.data = b.data) : a = b := by
  cases a; cases b; cases h; rfl

theorem strLt_irrefl (a : String) : strLt a a = false := charListLt_irrefl a.data

theorem strLt_trans {a b c : String} (h1 : strLt a b = true) (h2 : strLt b c = true) :
    strLt a c = true := charListLt_trans h1 h2

theorem strLt_asymm {a b : String} (h : strLt a b = true) : strLt b a = false := by
  by_contra hc
  have h2 : strLt b a = true := by
    cases hv : strLt b a
    · exact absurd hv hc
    · rfl
  have := strLt_trans h h2
  rw [strLt_irrefl] at this
  exact Bool.false_ne_true this

theorem str_eq_of_not_lt {a b : String} (h1 : strLt a b = false) (h2 : strLt b a = false) :
    a = b := by
  rcases charListLt_tri a.data b.data with h | h | h
  · exact absurd h (by simp [strLt] at h1; simp [h1])
  · exact absurd h (by simp [strLt] at h2; simp [h2])
  · exact str_data_eq h

theorem strLe_refl (a : String) : strLe a a = true := by
  simp [strLe, strLt_irrefl]

theorem strLe_of_lt {a b : String} (h : strLt a b = true) : strLe a b = true := by
  simp [strLe, strLt_asymm h]

theorem strLt_of_le_of_lt {a b c : String} (h1 : strLe a b = true) (h2 : strLt b c = true) :
    strLt a c = true := by
  have hba : strLt b a = false := by simpa [strLe] using h1
  rcases charListLt_tri a.data b.data with h | h | h
  · exact strLt_trans h h2
  · exact absurd h (by simp [strLt] at hba; simp [hba])
  · have : a = b := str_data_eq h
    subst this; exact h2

theorem strLt_of_lt_of_le {a b c : String} (h1 : strLt a b = true) (h2 : strLe b c = true) :
    strLt a c = true := by
  have hcb : strLt c b = false := by simpa [strLe] using h2
  rcases charListLt_tri b.data c.data with h | h | h
  · exact strLt_trans h1 h
  · exact absurd h (by simp [strLt] at hcb; simp [hcb])
  · have : b = c := str_data_eq h
    subst this; exact h1

theorem strLe_trans {a b c : String} (h1 : strLe a b = true) (h2 : strLe b c = true) :
    strLe a c = true := by
  simp only [strLe, Bool.not_eq_true'] at h1 h2 ⊢
  by_contra hc
  have hca : strLt c a = true := by
    cases hv : strLt c a
    · exact absurd hv hc
    · rfl
  have h3 : strLt c b = true := strLt_of_lt_of_le hca (by simp [strLe, h1])
  rw [h2] at h3
  exact Bool.false_ne_true h3

theorem strLe_total (a b : String) : strLe a b = true ∨ strLe b a = true := by
  rcases charListLt_tri a.data b.data with h | h | h
  · exact Or.inl (strLe_of_lt h)
  · exact Or.inr (strLe_of_lt h)
  · have : a = b := str_data_eq h
    subst this; exact Or.inl (strLe_refl a)

theorem strLt_of_le_of_ne {a b : String} (h1 : strLe a b = true) (h2 : a ≠ b) :
    strLt a b = true := by
  have hba : strLt b a = false := by simpa [strLe] using h1
  rcases charListLt_tri a.data b.data with h | h | h
  · exact h
  · exact absurd h (by simp [strLt] at hba; simp [hba])
  · exact absurd (str_data_eq h) h2

theorem ne_of_strLt {a b : String} (h : strLt a b = true) : a ≠ b := by
  intro he
  subst he
  rw [strLt_irrefl] at h
  exact Bool.false_ne_true h

instance : IsTrans String (fun a b => strLe a b = true) := ⟨fun _ _ _ => strLe_trans⟩

instance : IsTotal String (fun a b => strLe a b = true) := ⟨strLe_total⟩

/-- Model of Rust's `Vec::sort_unstable` on vectors of strings: any correct
sort produces the same list since the order is total and antisymmetric and
equal strings are identical, so instability is unobservable. Implemented as
insertion sort so the kernel can evaluate it. -/
def sortStrings (l : List String) : List String :=
  List.insertionSort (fun a b => strLe a b = true) l

/-- The sortedness invariant of the package lists (spec: PackageSet). -/
def PkgSorted (l : List String) : Prop :=
  List.Pairwise (fun a b => strLe a b = true) l

theorem sortStrings_sorted (l : List String) : PkgSorted (sortStrings l) :=
  List.sorted_insertionSort _ l

theorem sortStrings_perm (l : List String) : (sortStrings l).Perm l :=
  List.perm_insertionSort _ l

theorem mem_sortStrings {x : String} {l : List String} : x ∈ sortStrings l ↔ x ∈ l :=
  (sortStrings_perm l).mem_iff

/-- Auxiliary loop of Rust's `slice::binary_search` (`binary_search_by` with
`|p| p.cmp(x)`): the interval is `[left, right)`, the probe is
`mid = left + size / 2` with `size = right - left`, and the three comparison
outcomes move `left` past `mid`, move `right` down to `mid`, or return
`Ok(mid)`. The fuel argument only makes the recursion structural; it strictly
exceeds the interval width at every call. -/
def binary_search_go (l : List String) (x : String) : Nat → Nat → Nat → Option Nat
  | 0, _, _ => none
  | fuel + 1, left, right =>
    if left < right then
      let mid := left + (right - left) / 2
      let e := l.getD mid ""
      if strLt e x then binary_search_go l x fuel (mid + 1) right
      else if strLt x e then binary_search_go l x fuel left mid
      else some mid
    else none

/-- Rust `l.binary_search(&x)`: `some i` models `Ok(i)` and `none` models
`Err(_)` (the insertion index carried by `Err` is never used by the program,
only `is_err`/`is_ok`). -/
def binary_search (l : List String) (x : String) : Option Nat :=
  binary_search_go l x (l.length + 1) 0 l.length

/-- Translation of `compare_lists_only_in_first` (main.rs:165): keep the
elements of `l1` whose binary search in `l2` fails. -/
def compare_lists_only_in_first (l1 l2 : List String) : List String :=
  l1.filter (fun item => (binary_search l2 item).isNone)

/-- Translation of `compare_lists_in_both` (main.rs:172): keep the elements
of `l1` whose binary search in `l2` succeeds. -/
def compare_lists_in_both (l1 l2 : List String) : List String :=
  l1.filter (fun item => (binary_search l2 item).isSome)

theorem binary_search_go_sound {l : List String} {x : String} :
    ∀ {fuel left right i : Nat}, right ≤ l.length →
      binary_search_go l x fuel left right = some i →
      i < l.length ∧ l.getD i "" = x := by
  intro fuel
  induction fuel with
  | zero => intro left right i _ h; exact absurd h (by simp [binary_search_go])
  | succ f ih =>
    intro left right i hr h
    rw [binary_search_go] at h
    by_cases hlr : left < right
    · simp only [hlr, if_true] at h
      set mid := left + (right - left) / 2 with hmid
      have hmlt : mid < right := by omega
      by_cases h1 : strLt (l.getD mid "") x = true
      · simp only [h1, if_true] at h
        exact ih hr h
      · simp only [Bool.not_eq_true] at h1
        simp only [h1, Bool.false_eq_true, if_false] at h
        by_cases h2 : strLt x (l.getD mid "") = true
        · simp only [h2, if_true] at h
          exact ih (le_trans (le_of_lt hmlt) hr) h
        · simp only [Bool.not_eq_true] at h2
          simp only [h2, Bool.false_eq_true, if_false, Option.some.injEq] at h
          subst h
          exact ⟨lt_of_lt_of_le hmlt hr, (str_eq_of_not_lt h1 h2).symm ▸ rfl⟩
    · simp [hlr] at h

theorem binary_search_go_complete {l : List String} {x : String}
    (hs : PkgSorted l) (hx : x ∈ l) :
    ∀ {fuel left right : Nat}, right ≤ l.length → right - left ≤ fuel →
      (∀ i, i < left → i < l.length → strLt (l.getD i "") x = true) →
      (∀ i, right ≤ i → i < l.length → strLt x (l.getD i "") = true) →
      (binary_search_go l x fuel left right).isSome = true := by
  have key : ∀ left right, right ≤ left →
      (∀ i, i < left → i < l.length → strLt (l.getD i "") x = true) →
      (∀ i, right ≤ i → i < l.length → strLt x (l.getD i "") = true) → False := by
    intro left right hrl hlo hhi
    obtain ⟨j, hj, hjx⟩ := List.getElem_of_mem hx
    by_cases hjl : j < left
    · have := hlo j hjl hj
      rw [List.getD_eq_getElem l "" hj, hjx, strLt_irrefl] at this
      exact Bool.false_ne_true this
    · have := hhi j (by omega) hj
      rw [List.getD_eq_getElem l "" hj, hjx, strLt_irrefl] at this
      exact Bool.false_ne_true this
  have hpw := (List.pairwise_iff_getElem).mp hs
  intro fuel
  induction fuel with
  | zero =>
    intro left right _ hf hlo hhi
    exact (key left right (by omega) hlo hhi).elim
  | succ f ih =>
    intro left right hr hf hlo hhi
    rw [binary_search_go]
    by_cases hlr : left < right
    · simp only [hlr, if_true]
      set mid := left + (right - left) / 2 with hmid
      have hmlt : mid < right := by omega
      have hmid_len : mid < l.length := lt_of_lt_of_le hmlt hr
      by_cases h1 : strLt (l.getD mid "") x = true
      · simp only [h1, if_true]
        refine ih hr (by omega) ?_ hhi
        intro i hi hilen
        by_cases hil : i < left
        · exact hlo i hil hilen
        · by_cases him : i = mid
          · subst him; exact h1
          · have hle : strLe (l.getD i "") (l.getD mid "") = true := by
              rw [List.getD_eq_getElem l "" hilen, List.getD_eq_getElem l "" hmid_len]
              exact hpw i mid hilen hmid_len (by omega)
            exact strLt_of_le_of_lt hle h1
      · simp only [Bool.not_eq_true] at h1
        simp only [h1, Bool.false_eq_true, if_false]
        by_cases h2 : strLt x (l.getD mid "") = true
        · simp only [h2, if_true]
          refine ih (le_trans (le_of_lt hmlt) hr) (by omega) hlo ?_
          intro i hi hilen
          by_cases him : i = mid
          · subst him; exact h2
          · have hle : strLe (l.getD mid "") (l.getD i "") = true := by
              rw [List.getD_eq_getElem l "" hilen, List.getD_eq_getElem l "" hmid_len]
              exact hpw mid i hmid_len hilen (by omega)
            exact strLt_of_lt_of_le h2 hle
        · have h2f : strLt x (l.getD mid "") = false := by simpa using h2
          simp only [← List.getD_eq_getElem?_getD, h2f, Bool.false_eq_true, if_false]
          simp
    · exact (key left right (by omega) hlo hhi).elim

/-- Binary search on a sorted list decides membership. -/
theorem binary_search_mem {l : List String} {x : String} (hs : PkgSorted l) :
    (binary_search l x).isSome = true ↔ x ∈ l := by
  constructor
  · intro h
    obtain ⟨i, hi⟩ := Option.isSome_iff_exists.mp h
    obtain ⟨hlen, hval⟩ := binary_search_go_sound (le_refl l.length) hi
    rw [List.getD_eq_getElem l "" hlen] at hval
    exact hval ▸ List.getElem_mem hlen
  · intro h
    exact binary_search_go_complete hs h (le_refl l.length) (by omega)
      (fun i hi _ => absurd hi (by omega)) (fun i hi hilen => absurd hi (by omega))

theorem binary_search_none {l : List String} {x : String} (hs : PkgSorted l) :
    (binary_search l x).isNone = true ↔ x ∉ l := by
  rw [Option.isNone_iff_eq_none]
  constructor
  · intro h hmem
    have := (binary_search_mem hs).mpr hmem
    rw [h] at this
    simp at this
  · intro h
    cases hv : binary_search l x with
    | none => rfl
    | some i =>
      exact absurd ((binary_search_mem hs).mp (by simp [hv])) h

/-- On a sorted second list, `compare_lists_only_in_first` computes exactly
the sublist of elements of the first list that are not in the second,
preserving order and multiplicity. -/
theorem compare_lists_only_in_first_eq {l1 l2 : List String} (hs : PkgSorted l2) :
    compare_lists_only_in_first l1 l2 = l1.filter (fun x => decide (x ∉ l2)) := by
  apply List.filter_congr
  intro x _
  rcases Decidable.em (x ∈ l2) with h | h
  · have h1 : (binary_search l2 x).isSome = true := (binary_search_mem hs).mpr h
    cases hv : binary_search l2 x with
    | none => rw [hv] at h1; simp at h1
    | some i => simp [h]
  · have h1 : (binary_search l2 x).isNone = true := (binary_search_none hs).mpr h
    simp [h1, h]

/-- On a sorted second list, `compare_lists_in_both` computes exactly the
sublist of elements of the first list that are also in the second. -/
theorem compare_lists_in_both_eq {l1 l2 : List String} (hs : PkgSorted l2) :
    compare_lists_in_both l1 l2 = l1.filter (fun x => decide (x ∈ l2)) := by
  apply List.filter_congr
  intro x _
  rcases Decidable.em (x ∈ l2) with h | h
  · have h1 : (binary_search l2 x).isSome = true := (binary_search_mem hs).mpr h
    simp [h1, h]
  · have h1 : (binary_search l2 x).isNone = true := (binary_search_none hs).mpr h
    cases hv : binary_search l2 x with
    | none => simp [h]
    | some i => rw [hv] at h1; simp at h1

theorem mem_compare_only {x : String} {l1 l2 : List String} (hs : PkgSorted l2) :
    x ∈ compare_lists_only_in_first l1 l2 ↔ x ∈ l1 ∧ x ∉ l2 := by
  rw [compare_lists_only_in_first_eq hs, List.mem_filter]
  simp

theorem mem_compare_both {x : String} {l1 l2 : List String} (hs : PkgSorted l2) :
    x ∈ compare_lists_in_both l1 l2 ↔ x ∈ l1 ∧ x ∈ l2 := by
  rw [compare_lists_in_both_eq hs, List.mem_filter]
  simp

/-- One observable external interaction of a run. `ran` is an invocation of
the command runner (`Command::new(..).status()` in `run_cmd` /
`run_cmd_with_list`; the source currently routes the vector through an
`echo` wrapper marked "For debugging purposes", which applies uniformly to
every run and is therefore not recorded), `queried` is an invocation of the
query runner (`get_packages_from_command`/`..._with_list`), and `printed`
is a `println!` on standard output. -/
inductive Event where
  | printed (s : String)
  | ran (cmd : List String)
  | queried (cmd : List String)
deriving DecidableEq, Repr

/-- The external world: whether a run command exits successfully, and the
raw standard output (`none` = spawn failure or non-zero exit) of a query
command. -/
structure Env where
  runOk : List String → Bool
  queryOut : List String → Option String

/-- Translation of the `GlobalConfig` struct (main.rs:15). -/
structure GlobalConfig where
  dry_mode : Bool
  show_cmds : Bool
  show_cmds_in_dry_mode : Bool
  show_reports : Bool
  sudo_cmd : String
  error_on_unknown_keys : Bool
  warn_on_duplicates : Bool
  comment_string : String
deriving DecidableEq, Repr

/-- Splitting of a byte stream into lines as done by Rust's
`BufRead::lines` and `str::lines`: lines are terminated by a newline or by
a carriage return plus newline (the terminator is removed), the final line
needs no terminator, and a final empty fragment is not a line. The first
argument accumulates the current line in reverse. -/
def rustLinesGo : List Char → List Char → List String
  | rcur, [] => if rcur = [] then [] else [String.mk rcur.reverse]
  | rcur, c :: rest =>
    if c = '\n' then
      let rcur2 := match rcur with
        | '\r' :: t => t
        | l => l
      String.mk rcur2.reverse :: rustLinesGo [] rest
    else rustLinesGo (c :: rcur) rest

/-- The list of lines of a Rust string, as produced by `BufRead::lines`
over captured stdout and by `str::lines` over the rendered config file. -/
def rustLines (s : String) : List String := rustLinesGo [] s.data

/-- Rust `str::trim`: drop whitespace from both ends (restricted to the
ASCII whitespace relevant here). -/
def rustTrim (s : String) : String :=
  String.mk (((s.data.dropWhile Char.isWhitespace).reverse.dropWhile Char.isWhitespace).reverse)

/-- Translation of `run_cmd` (main.rs:76; that name is a Lean command keyword, hence `run_command` here): an empty vector is a trivial
success; the command line is printed when `show_cmds` (or, in dry mode,
`show_cmds_in_dry_mode`) is set; in dry mode the function returns before
any process is spawned; otherwise the process runs and a non-zero exit is
an error. Returns the emitted events and the success flag. -/
def run_command (g : GlobalConfig) (env : Env) (cmd : List String) : List Event × Bool :=
  if cmd = [] then ([], true)
  else
    let pr : List Event :=
      if g.show_cmds || (g.dry_mode && g.show_cmds_in_dry_mode) then
        [Event.printed ("> " ++ String.intercalate " " cmd)]
      else []
    if g.dry_mode then (pr, true)
    else (pr ++ [Event.ran cmd], env.runOk cmd)

/-- Translation of `run_cmd_with_list` (main.rs:97): as `run_command`, but the
package list is appended to the command vector and an empty list is also a
trivial success. -/
def run_command_with_list (g : GlobalConfig) (env : Env) (cmd list : List String) :
    List Event × Bool :=
  if cmd = [] ∨ list = [] then ([], true)
  else
    let pr : List Event :=
      if g.show_cmds || (g.dry_mode && g.show_cmds_in_dry_mode) then
        [Event.printed ("> " ++ String.intercalate " " cmd ++ " " ++ String.intercalate " " list)]
      else []
    if g.dry_mode then (pr, true)
    else (pr ++ [Event.ran (cmd ++ list)], env.runOk (cmd ++ list))

/-- Translation of `get_packages_from_command` (main.rs:118): an empty
vector yields an empty list without spawning; otherwise the process is
spawned (recorded as a `queried` event), failure propagates, and on success
the captured stdout is split into lines and sorted with `sort_unstable`.
No trimming, deduplication or empty-line filtering is performed here. -/
def get_packages_from_command (env : Env) (cmd : List String) :
    List Event × Option (List String) :=
  if cmd = [] then ([], some [])
  else
    match env.queryOut cmd with
    | none => ([Event.queried cmd], none)
    | some out => ([Event.queried cmd], some (sortStrings (rustLines out)))

/-- Translation of `get_packages_from_command_with_list` (main.rs:141). -/
def get_packages_from_command_with_list (env : Env) (cmd list : List String) :
    List Event × Option (List String) :=
  if cmd = [] ∨ list = [] then ([], some [])
  else
    match env.queryOut (cmd ++ list) with
    | none => ([Event.queried (cmd ++ list)], none)
    | some out => ([Event.queried (cmd ++ list)], some (sortStrings (rustLines out)))

/-- Translation of the free function `report` (main.rs:201): prints the
message followed by the joined object list, unless reporting is disabled or
the list is empty. -/
def report (g : GlobalConfig) (msg : String) (objects : List String) (sep : String) :
    List Event :=
  if g.show_reports = false then []
  else if objects = [] then []
  else [Event.printed (msg ++ " " ++ String.intercalate sep objects)]

/-- Inner `while` of `cleanup_package_list` (main.rs:190): starting at
index `i`, repeatedly remove the element at `i + 1` while it equals the
element at `i`, re-checking the shrinking length each iteration. -/
def removeDupsAt (l : List String) (i : Nat) : List String :=
  if h : i < l.length - 1 ∧ l.getD i "" = l.getD (i + 1) "" then
    removeDupsAt (l.eraseIdx (i + 1)) i
  else l
termination_by l.length
decreasing_by
  have h1 : i + 1 < l.length := by omega
  simp [List.length_eraseIdx, h1]
  omega

theorem removeDupsAt_length_le (l : List String) (i : Nat) :
    (removeDupsAt l i).length ≤ l.length := by
  unfold removeDupsAt
  split
  · rename_i h
    have h1 : i + 1 < l.length := by omega
    have h2 := removeDupsAt_length_le (l.eraseIdx (i + 1)) i
    have h3 : (l.eraseIdx (i + 1)).length ≤ l.length := by
      simp [List.length_eraseIdx, h1]
    exact le_trans h2 h3
  · exact le_refl _
termination_by l.length
decreasing_by
  have h1 : i + 1 < l.length := by omega
  simp [List.length_eraseIdx, h1]
  omega

/-- Outer `while` of `cleanup_package_list` (main.rs:186): walk the index
over the vector, squeezing out runs of adjacent duplicates. The guard
`i < l.len() - 1` is evaluated in `Nat` here; the `usize` underflow of the
Rust original on an empty vector is modelled
in `cleanup_package_list` below. -/
def cleanupLoop (l : List String) (i : Nat) : List String :=
  if i < l.length - 1 then cleanupLoop (removeDupsAt l i) (i + 1) else l
termination_by l.length - i
decreasing_by
  have := removeDupsAt_length_le l i
  omega

/-- Translation of `cleanup_package_list` (main.rs:181): sort, then remove
adjacent duplicates in place. On an empty vector the Rust loop bound
`l.len() - 1` underflows `usize` (panic on the overflowing subtraction in
debug builds; wrap-around to `usize::MAX` followed by an out-of-bounds
`l[0]` panic in release builds), so the function never returns normally:
that panic is modelled as `none`. The duplicate warning goes to stderr and
is not modelled. -/
def cleanup_package_list (l : List String) : Option (List String) :=
  let s := sortStrings l
  if s.length = 0 then none
  else some (cleanupLoop s 0)

/-- Whether the pattern occurs at the head of the character list. -/
def startsWithChars : List Char → List Char → Bool
  | [], _ => true
  | _ :: _, [] => false
  | p :: ps, c :: cs => p = c && startsWithChars ps cs

/-- Rust `str::find` for a substring pattern: index (in characters; the
config machinery only meets ASCII, where character and byte indices agree)
of the first occurrence. `find("")` is `Some(0)`, as in Rust. -/
def findSub (pat : List Char) : List Char → Option Nat
  | [] => if pat = [] then some 0 else none
  | c :: cs =>
    if startsWithChars pat (c :: cs) then some 0
    else (findSub pat cs).map (· + 1)

/-- The comment-removal step of `get_current_config_state` (main.rs:483):
`s.find(comment).map_or(s, |idx| &s[..idx])`. -/
def stripComment (comment line : List Char) : List Char :=
  match findSub comment line with
  | none => line
  | some i => line.take i

/-- The line-parsing step of `get_current_config_state` (main.rs:478):
split the rendered config file into lines, cut each line at the comment
marker, trim whitespace, and drop lines that end up empty. -/
def parse_config_lines (comment_string : String) (render : String) : List String :=
  (rustLines render).filterMap (fun s =>
    let s2 := rustTrim (String.mk (stripComment comment_string.data s.data))
    if s2 = "" then none else some s2)

/-- Translation of the `ThreeStateSyncronizer` struct (main.rs:281). The
`config_path` field is replaced by `rendered_config`: reading the config
file and evaluating its template through tera is an external collaborator
(spec section 1), so the model receives the rendered text directly. -/
structure ThreeStateSyncronizer where
  global_config : GlobalConfig
  rendered_config : String
  installed_packages_cmd : List String
  dependency_packages_cmd : List String
  explicitly_installed_cmd : List String
  explicitly_unrequired_cmd : List String
  as_explicit_cmd : List String
  install_cmd : List String
  as_dependency_cmd : List String
  remove_cmd : List String
  update_cmd : List String
  get_orphans_cmd : List String
  get_group_packages_cmd : List String
  to_install_report_msg : String
  to_mark_explicit_report_msg : String
  to_remove_report_msg : String
  to_mark_dependency_report_msg : String
deriving DecidableEq, Repr

/-- Translation of the `ThreeStateUpDiff` struct (main.rs:300). -/
structure ThreeStateUpDiff where
  parent_sync : ThreeStateSyncronizer
  to_install : List String
  to_mark_explicit : List String
deriving DecidableEq, Repr

/-- Translation of the `ThreeStateDownDiff` struct (main.rs:305). -/
structure ThreeStateDownDiff where
  parent_sync : ThreeStateSyncronizer
  to_remove : List String
  to_mark_dependency : List String
deriving DecidableEq, Repr

/-- Translation of `get_current_config_state` (main.rs:453): parse the
rendered config file into package lines, then post-process them with
`cleanup_package_list` (whose panic on an empty list surfaces as `none`). -/
def get_current_config_state (s : ThreeStateSyncronizer) : Option (List String) :=
  cleanup_package_list (parse_config_lines s.global_config.comment_string s.rendered_config)

/-- Translation of `get_up_diff` (main.rs:505): query the installed and the
dependency-installed packages, then compare against the declared state. -/
def get_up_diff (s : ThreeStateSyncronizer) (env : Env) (config_state : List String) :
    List Event × Option ThreeStateUpDiff :=
  match get_packages_from_command env s.installed_packages_cmd with
  | (e1, none) => (e1, none)
  | (e1, some installed_packages) =>
    match get_packages_from_command env s.dependency_packages_cmd with
    | (e2, none) => (e1 ++ e2, none)
    | (e2, some dependency_packages) =>
      (e1 ++ e2, some
        { parent_sync := s
          to_install := compare_lists_only_in_first config_state installed_packages
          to_mark_explicit := compare_lists_in_both config_state dependency_packages })

/-- Translation of `get_down_diff` (main.rs:516): query the explicitly
installed and the explicitly unrequired packages, subtract to obtain the
explicitly required ones, then compare against the declared state. -/
def get_down_diff (s : ThreeStateSyncronizer) (env : Env) (config_state : List String) :
    List Event × Option ThreeStateDownDiff :=
  match get_packages_from_command env s.explicitly_installed_cmd with
  | (e1, none) => (e1, none)
  | (e1, some explicitly_installed_packages) =>
    match get_packages_from_command env s.explicitly_unrequired_cmd with
    | (e2, none) => (e1 ++ e2, none)
    | (e2, some explicitly_unrequired_packages) =>
      let explicitly_required_packages :=
        compare_lists_only_in_first explicitly_installed_packages explicitly_unrequired_packages
      (e1 ++ e2, some
        { parent_sync := s
          to_remove := compare_lists_only_in_first explicitly_unrequired_packages config_state
          to_mark_dependency :=
            compare_lists_only_in_first explicitly_required_packages config_state })

/-- Translation of `ThreeStateUpDiff::report` (main.rs:540). -/
def up_diff_report (d : ThreeStateUpDiff) : List Event :=
  report d.parent_sync.global_config d.parent_sync.to_install_report_msg d.to_install ", " ++
    report d.parent_sync.global_config d.parent_sync.to_mark_explicit_report_msg
      d.to_mark_explicit ", "

/-- Translation of `ThreeStateUpDiff::sync` (main.rs:555): mark-explicit is
applied first, then install; a failure of the first command short-circuits
the second. -/
def up_diff_sync (d : ThreeStateUpDiff) (env : Env) : List Event × Bool :=
  let p1 := run_command_with_list d.parent_sync.global_config env
    d.parent_sync.as_explicit_cmd d.to_mark_explicit
  if p1.2 then
    let p2 := run_command_with_list d.parent_sync.global_config env
      d.parent_sync.install_cmd d.to_install
    (p1.1 ++ p2.1, p2.2)
  else (p1.1, false)

/-- Translation of `ThreeStateDownDiff::report` (main.rs:571). -/
def down_diff_report (d : ThreeStateDownDiff) : List Event :=
  report d.parent_sync.global_config d.parent_sync.to_remove_report_msg d.to_remove ", " ++
    report d.parent_sync.global_config d.parent_sync.to_mark_dependency_report_msg
      d.to_mark_dependency ", "

/-- Translation of `ThreeStateDownDiff::sync` (main.rs:586): mark-dependency
is applied first, then remove; a failure of the first command
short-circuits the second. -/
def down_diff_sync (d : ThreeStateDownDiff) (env : Env) : List Event × Bool :=
  let p1 := run_command_with_list d.parent_sync.global_config env
    d.parent_sync.as_dependency_cmd d.to_mark_dependency
  if p1.2 then
    let p2 := run_command_with_list d.parent_sync.global_config env
      d.parent_sync.remove_cmd d.to_remove
    (p1.1 ++ p2.1, p2.2)
  else (p1.1, false)

/-- Translation of `SystemConfigSyncronizer::sync_up` (main.rs:232):
compute the up-diff, report it, apply it. -/
def sync_up (s : ThreeStateSyncronizer) (env : Env) (config_state : List String) :
    List Event × Bool :=
  match get_up_diff s env config_state with
  | (e, none) => (e, false)
  | (e, some up_diff) =>
    let rep := up_diff_report up_diff
    let p := up_diff_sync up_diff env
    (e ++ rep ++ p.1, p.2)

/-- Translation of `SystemConfigSyncronizer::sync_down` (main.rs:239). -/
def sync_down (s : ThreeStateSyncronizer) (env : Env) (config_state : List String) :
    List Event × Bool :=
  match get_down_diff s env config_state with
  | (e, none) => (e, false)
  | (e, some down_diff) =>
    let rep := down_diff_report down_diff
    let p := down_diff_sync down_diff env
    (e ++ rep ++ p.1, p.2)

/-- Translation of `ThreeStateSyncronizer::pre_sync` (main.rs:529): run the
update command. -/
def pre_sync (s : ThreeStateSyncronizer) (env : Env) : List Event × Bool :=
  run_command s.global_config env s.update_cmd

/-- Translation of `ThreeStateSyncronizer::post_sync` (main.rs:533): query
the orphaned packages and remove them. -/
def post_sync (s : ThreeStateSyncronizer) (env : Env) : List Event × Bool :=
  match get_packages_from_command env s.get_orphans_cmd with
  | (e, none) => (e, false)
  | (e, some orphans) =>
    let p := run_command_with_list s.global_config env s.remove_cmd orphans
    (e ++ p.1, p.2)

/-- Translation of `SystemConfigSyncronizer::sync_up_down` (main.rs:262):
pre-sync, resolve the declared state, up-sync, down-sync, post-sync, with
`?`-propagation: the first failing step (or the `cleanup_package_list`
panic, surfacing as `none` from `get_current_config_state`) aborts the
remaining steps. The returned trace lists exactly the events of the steps
that did execute. -/
def sync_up_down (s : ThreeStateSyncronizer) (env : Env) : List Event × Bool :=
  let p0 := pre_sync s env
  if p0.2 then
    match get_current_config_state s with
    | none => (p0.1, false)
    | some config_state =>
      let p1 := sync_up s env config_state
      if p1.2 then
        let p2 := sync_down s env config_state
        if p2.2 then
          let p3 := post_sync s env
          (p0.1 ++ p1.1 ++ p2.1 ++ p3.1, p3.2)
        else (p0.1 ++ p1.1 ++ p2.1, false)
      else (p0.1 ++ p1.1, false)
  else (p0.1, false)

/-- The subset of `tera::Value` that the `group(..)` template macro
inspects: strings, arrays, and anything else. -/
inductive TeraValue where
  | str (s : String)
  | arr (l : List TeraValue)
  | other

/-- Extraction of a string array from a `tera::Value::Array`, failing on
any non-string element (main.rs:430). -/
def teraStringArr : List TeraValue → Option (List String)
  | [] => some []
  | TeraValue.str s :: rest => (teraStringArr rest).map (fun a => s :: a)
  | _ :: _ => none

/-- Translation of `ThreeStateSyncronizer::get_group_packages`
(main.rs:409), the callback behind the `group(name, except?)` template
macro. The tera argument map is modelled by its two relevant entries. The
group members are fetched through the query runner; when `except` is given
its string or strings are removed with `compare_lists_only_in_first`,
passing the user-supplied list exactly as written (unsorted). The result is
the package list joined with newlines; `none` models a `tera::Error`. -/
def get_group_packages (cmd : List String) (env : Env)
    (nameArg exceptArg : Option TeraValue) : List Event × Option String :=
  match nameArg with
  | none => ([], none)
  | some v =>
    match v with
    | TeraValue.str groupname =>
      (match get_packages_from_command_with_list env cmd [groupname] with
       | (e, none) => (e, none)
       | (e, some packages) =>
         match exceptArg with
         | none => (e, some (String.intercalate "\n" packages))
         | some (TeraValue.str s) =>
           (e, some (String.intercalate "\n" (compare_lists_only_in_first packages [s])))
         | some (TeraValue.arr arr) =>
           match teraStringArr arr with
           | none => (e, none)
           | some to_unlist =>
             (e, some (String.intercalate "\n" (compare_lists_only_in_first packages to_unlist)))
         | some TeraValue.other => (e, none))
    | _ => ([], none)

/-- Modelled from the spec: the declared configuration of section 3 with
literal `packages`, `groups` and `blacklist`. This layer is absent from
src (the shipped config source is the tera-templated line file); the spec
(sections 3, 4.2, 8) specifies it, so it is modelled here from the spec
text to settle the claims about it. -/
structure DeclaredConfig where
  packages : List String
  groups : List String
  blacklist : List String

/-- Modelled from the spec: the error kinds of the config-state resolver
(spec sections 4.2 and 7). -/
inductive ResolveError where
  | blacklistConflict (names : List String)
  | groupQueryError (group : String)

/-- Modelled from the spec: `resolve(DeclaredConfig) -> DeclaredState`
(spec section 4.2). Step 1 validates the literal overlap with the
blacklist before any group expansion or querying (so the error branch
performs no external interaction and emits no events); step 2 starts from
the literal packages; step 3 expands each group through the query runner
and subtracts the blacklist from the whole working set; step 4 sorts and
deduplicates. The helper `resolve_expand` expands the groups in order,
one query each, concatenating the member lists. -/
def resolve_expand (env : Env) (get_group_packages_cmd : List String) :
    List String → List Event × Except ResolveError (List String)
  | [] => ([], Except.ok [])
  | g :: rest =>
    match get_packages_from_command_with_list env get_group_packages_cmd [g] with
    | (e, none) => (e, Except.error (ResolveError.groupQueryError g))
    | (e, some pkgs) =>
      match resolve_expand env get_group_packages_cmd rest with
      | (e2, Except.error err) => (e ++ e2, Except.error err)
      | (e2, Except.ok others) => (e ++ e2, Except.ok (pkgs ++ others))

/-- Modelled from the spec: the resolver itself; see `resolve_expand`. -/
def resolve (cfg : DeclaredConfig) (env : Env) (get_group_packages_cmd : List String) :
    List Event × Except ResolveError (List String) :=
  let conflict := compare_lists_in_both cfg.packages (sortStrings cfg.blacklist)
  if conflict ≠ [] then ([], Except.error (ResolveError.blacklistConflict conflict))
  else
    match resolve_expand env get_group_packages_cmd cfg.groups with
    | (e, Except.error err) => (e, Except.error err)
    | (e, Except.ok group_pkgs) =>
      let working := cfg.packages ++ group_pkgs
      let working := compare_lists_only_in_first working (sortStrings cfg.blacklist)
      (e, Except.ok ((sortStrings working).dedup))

/-- Translation of `GlobalConfig::default` (main.rs:27). -/
def GlobalConfig.default : GlobalConfig where
  dry_mode := true
  show_cmds := true
  show_cmds_in_dry_mode := true
  show_reports := true
  sudo_cmd := "sudo"
  error_on_unknown_keys := true
  warn_on_duplicates := true
  comment_string := "#"

/-- Translation of `pacman_default_config` (main.rs:311); the
`config_path` field is replaced by the rendered config text, see
`ThreeStateSyncronizer`. -/
def pacman_default_config (gconfig : GlobalConfig) (rendered_config : String) :
    ThreeStateSyncronizer where
  global_config := gconfig
  rendered_config := rendered_config
  installed_packages_cmd := ["pacman", "-Qnq"]
  dependency_packages_cmd := ["pacman", "-Qnqd"]
  explicitly_installed_cmd := ["pacman", "-Qnqe"]
  explicitly_unrequired_cmd := ["pacman", "-Qnqet"]
  as_explicit_cmd := [gconfig.sudo_cmd, "pacman", "-D", "--asexplicit"]
  install_cmd := [gconfig.sudo_cmd, "pacman", "-S"]
  as_dependency_cmd := [gconfig.sudo_cmd, "pacman", "-D", "--asdeps"]
  remove_cmd := [gconfig.sudo_cmd, "pacman", "-Rs"]
  update_cmd := [gconfig.sudo_cmd, "pacman", "-Syu"]
  get_orphans_cmd := ["pacman", "-Qnqdt"]
  get_group_packages_cmd := ["pacman", "-Sqg"]
  to_install_report_msg := "Packages to install:"
  to_mark_explicit_report_msg := "Packages to mark as explicit:"
  to_remove_report_msg := "Packages to remove:"
  to_mark_dependency_report_msg := "Packages to mark as dependencies:"

instance (l : List String) : Decidable (PkgSorted l) := by
  unfold PkgSorted
  infer_instance

theorem get_packages_eq {env : Env} {cmd : List String} {out : String}
    (hc : cmd ≠ []) (h : env.queryOut cmd = some out) :
    get_packages_from_command env cmd =
      ([Event.queried cmd], some (sortStrings (rustLines out))) := by
  simp [get_packages_from_command, hc, h]

/-- The up-diff fixture: installed = {a, b}, dependency-installed = {b}. -/
def envC1 : Env where
  runOk := fun _ => true
  queryOut := fun cmd =>
    if cmd = ["pacman", "-Qnq"] then some "a\nb\n"
    else if cmd = ["pacman", "-Qnqd"] then some "b\n"
    else some ""

/-- Claim C1: for every declared state and snapshot, the up-diff
computation returns `toInstall = declared − snapshot.installed` and
`toMarkExplicit = declared ∩ snapshot.dependencyInstalled`; in particular,
for declared = {a, b, c}, installed = {a, b}, dependencyInstalled = {b},
the result is `toInstall = {c}` and `toMarkExplicit = {b}`. The snapshot
sets are the line lists produced by the two query commands. -/
theorem up_diff_correct :
    (∀ (s : ThreeStateSyncronizer) (env : Env) (config_state : List String)
      (outI outD : String) (ev : List Event) (d : ThreeStateUpDiff),
      s.installed_packages_cmd ≠ [] → s.dependency_packages_cmd ≠ [] →
      env.queryOut s.installed_packages_cmd = some outI →
      env.queryOut s.dependency_packages_cmd = some outD →
      get_up_diff s env config_state = (ev, some d) →
      (∀ x, x ∈ d.to_install ↔ x ∈ config_state ∧ x ∉ rustLines outI) ∧
      (∀ x, x ∈ d.to_mark_explicit ↔ x ∈ config_state ∧ x ∈ rustLines outD)) ∧
    ((get_up_diff (pacman_default_config GlobalConfig.default "") envC1
        ["a", "b", "c"]).2.map ThreeStateUpDiff.to_install = some ["c"] ∧
     (get_up_diff (pacman_default_config GlobalConfig.default "") envC1
        ["a", "b", "c"]).2.map ThreeStateUpDiff.to_mark_explicit = some ["b"]) := by
  constructor
  · intro s env config_state outI outD ev d h1 h2 h3 h4 h5
    rw [get_up_diff, get_packages_eq h1 h3, get_packages_eq h2 h4] at h5
    simp only [Prod.mk.injEq, Option.some.injEq] at h5
    obtain ⟨-, h5⟩ := h5
    subst h5
    constructor
    · intro x
      rw [mem_compare_only (sortStrings_sorted _)]
      simp [mem_sortStrings]
    · intro x
      rw [mem_compare_both (sortStrings_sorted _)]
      simp [mem_sortStrings]
  · constructor <;> rfl

/-- Concrete instantiation of the universally quantified part of
`up_diff_correct`. -/
theorem up_diff_correct_witness :
    (∀ x, x ∈ (ThreeStateUpDiff.mk (pacman_default_config GlobalConfig.default "")
        ["c"] ["b"]).to_install ↔
      x ∈ ["a", "b", "c"] ∧ x ∉ rustLines "a\nb\n") ∧
    (∀ x, x ∈ (ThreeStateUpDiff.mk (pacman_default_config GlobalConfig.default "")
        ["c"] ["b"]).to_mark_explicit ↔
      x ∈ ["a", "b", "c"] ∧ x ∈ rustLines "b\n") :=
  up_diff_correct.1 (pacman_default_config GlobalConfig.default "") envC1
    ["a", "b", "c"] "a\nb\n" "b\n"
    [Event.queried ["pacman", "-Qnq"], Event.queried ["pacman", "-Qnqd"]]
    (ThreeStateUpDiff.mk (pacman_default_config GlobalConfig.default "") ["c"] ["b"])
    (by decide) (by decide) rfl rfl rfl

/-- Claim C2: for every declared state and snapshot, the down-diff
computation returns `toRemove = snapshot.explicitlyUnrequired − declared`
and `toMarkDependency = (snapshot.explicitlyInstalled −
snapshot.explicitlyUnrequired) − declared`. The declared state carries the
PackageSet sortedness invariant (it is produced sorted by
`cleanup_package_list`), which the binary searches on it require. -/
theorem down_diff_correct :
    ∀ (s : ThreeStateSyncronizer) (env : Env) (config_state : List String)
      (outE outU : String) (ev : List Event) (d : ThreeStateDownDiff),
      PkgSorted config_state →
      s.explicitly_installed_cmd ≠ [] → s.explicitly_unrequired_cmd ≠ [] →
      env.queryOut s.explicitly_installed_cmd = some outE →
      env.queryOut s.explicitly_unrequired_cmd = some outU →
      get_down_diff s env config_state = (ev, some d) →
      (∀ x, x ∈ d.to_remove ↔ x ∈ rustLines outU ∧ x ∉ config_state) ∧
      (∀ x, x ∈ d.to_mark_dependency ↔
        (x ∈ rustLines outE ∧ x ∉ rustLines outU) ∧ x ∉ config_state) := by
  intro s env config_state outE outU ev d hcs h1 h2 h3 h4 h5
  rw [get_down_diff, get_packages_eq h1 h3, get_packages_eq h2 h4] at h5
  simp only [Prod.mk.injEq, Option.some.injEq] at h5
  obtain ⟨-, h5⟩ := h5
  subst h5
  constructor
  · intro x
    rw [mem_compare_only hcs]
    simp [mem_sortStrings]
  · intro x
    rw [mem_compare_only hcs, mem_compare_only (sortStrings_sorted _)]
    simp [mem_sortStrings]

/-- Concrete instantiation of `down_diff_correct`, at the spec's down-diff
example: declared = {a, b, c}, explicitlyInstalled = {a, b, d},
explicitlyUnrequired = {d}. -/
theorem down_diff_correct_witness :
    (∀ x, x ∈ (ThreeStateDownDiff.mk (pacman_default_config GlobalConfig.default "")
        ["d"] []).to_remove ↔ x ∈ rustLines "d\n" ∧ x ∉ ["a", "b", "c"]) ∧
    (∀ x, x ∈ (ThreeStateDownDiff.mk (pacman_default_config GlobalConfig.default "")
        ["d"] []).to_mark_dependency ↔
      (x ∈ rustLines "a\nb\nd\n" ∧ x ∉ rustLines "d\n") ∧ x ∉ ["a", "b", "c"]) :=
  down_diff_correct (pacman_default_config GlobalConfig.default "")
    (Env.mk (fun _ => true) (fun cmd =>
      if cmd = ["pacman", "-Qnqe"] then some "a\nb\nd\n"
      else if cmd = ["pacman", "-Qnqet"] then some "d\n"
      else some ""))
    ["a", "b", "c"] "a\nb\nd\n" "d\n"
    [Event.queried ["pacman", "-Qnqe"], Event.queried ["pacman", "-Qnqet"]]
    (ThreeStateDownDiff.mk (pacman_default_config GlobalConfig.default "") ["d"] [])
    (by decide) (by decide) (by decide) rfl rfl rfl

/-- The effect of one pass of the inner duplicate-removal loop at the head
of a sorted list: drop the leading elements equal to `a`. -/
def stripLeadingEq (a : String) : List String → List String
  | [] => []
  | b :: rest => if a = b then stripLeadingEq a rest else b :: rest

theorem stripLeadingEq_sublist (a : String) (l : List String) :
    (stripLeadingEq a l).Sublist l := by
  induction l with
  | nil => simp [stripLeadingEq]
  | cons b rest ih =>
    rw [stripLeadingEq]
    split
    · exact ih.trans (List.sublist_cons_self b rest)
    · exact List.Sublist.refl _

theorem removeDupsAt_cons (a : String) (l : List String) (i : Nat) :
    removeDupsAt (a :: l) (i + 1) = a :: removeDupsAt l i := by
  have hiff : (i + 1 < (a :: l).length - 1 ∧
        (a :: l).getD (i + 1) "" = (a :: l).getD (i + 1 + 1) "")
      ↔ (i < l.length - 1 ∧ l.getD i "" = l.getD (i + 1) "") := by
    constructor
    · rintro ⟨hl, he⟩
      refine ⟨by simp at hl; omega, ?_⟩
      simpa [List.getD_cons_succ] using he
    · rintro ⟨hl, he⟩
      refine ⟨by simp; omega, ?_⟩
      simpa [List.getD_cons_succ] using he
  rw [removeDupsAt.eq_def (a :: l) (i + 1), removeDupsAt.eq_def l i]
  by_cases h : i < l.length - 1 ∧ l.getD i "" = l.getD (i + 1) ""
  · rw [dif_pos (hiff.mpr h), dif_pos h, List.eraseIdx_cons_succ]
    exact removeDupsAt_cons a (l.eraseIdx (i + 1)) i
  · rw [dif_neg (fun hc => h (hiff.mp hc)), dif_neg h]
termination_by l.length
decreasing_by
  have h1 : i + 1 < l.length := by omega
  simp [List.length_eraseIdx, h1]
  omega

theorem removeDupsAt_zero (a : String) (l : List String) :
    removeDupsAt (a :: l) 0 = a :: stripLeadingEq a l := by
  cases l with
  | nil =>
    rw [removeDupsAt.eq_def]
    rw [dif_neg (by simp)]
    rfl
  | cons b rest =>
    rw [removeDupsAt.eq_def]
    by_cases hab : a = b
    · rw [dif_pos ⟨by simp only [List.length_cons]; omega,
        by simp only [List.getD_cons_zero, List.getD_cons_succ]; exact hab⟩]
      rw [List.eraseIdx_cons_succ, List.eraseIdx_cons_zero]
      rw [removeDupsAt_zero a rest]
      simp [stripLeadingEq, hab]
    · rw [dif_neg (by
        simp only [List.getD_cons_zero, List.getD_cons_succ]
        intro hc
        exact hab hc.2)]
      simp [stripLeadingEq, hab]
termination_by l.length

theorem cleanupLoop_cons (a : String) (l : List String) (i : Nat) :
    cleanupLoop (a :: l) (i + 1) = a :: cleanupLoop l i := by
  rw [cleanupLoop.eq_def (a :: l) (i + 1), cleanupLoop.eq_def l i]
  by_cases h : i < l.length - 1
  · rw [if_pos (show i + 1 < (a :: l).length - 1 by simp only [List.length_cons]; omega),
      if_pos h, removeDupsAt_cons]
    exact cleanupLoop_cons a (removeDupsAt l i) (i + 1)
  · rw [if_neg (show ¬ i + 1 < (a :: l).length - 1 by simp only [List.length_cons]; omega),
      if_neg h]
termination_by l.length - i
decreasing_by
  have hle := removeDupsAt_length_le l i
  omega

theorem cleanupLoop_zero (a : String) (l : List String) :
    cleanupLoop (a :: l) 0 =
      if l = [] then [a] else a :: cleanupLoop (stripLeadingEq a l) 0 := by
  by_cases hl : l = []
  · subst hl
    rw [cleanupLoop.eq_def]
    simp
  · rw [cleanupLoop.eq_def]
    rw [if_pos (by simp; exact List.length_pos.mpr hl)]
    rw [removeDupsAt_zero, cleanupLoop_cons]
    simp [hl]

theorem mem_stripLeadingEq {a x : String} {l : List String} (hs : PkgSorted (a :: l)) :
    x ∈ stripLeadingEq a l ↔ x ∈ l ∧ strLt a x = true := by
  induction l with
  | nil => simp [stripLeadingEq]
  | cons b rest ih =>
    have hpc := List.pairwise_cons.mp hs
    have hab : strLe a b = true := hpc.1 b (by simp)
    rw [stripLeadingEq]
    split
    · rename_i heq
      subst heq
      have hs2 : PkgSorted (a :: rest) := by
        unfold PkgSorted
        rw [List.pairwise_cons]
        exact ⟨fun y hy => hpc.1 y (by simp [hy]), (List.pairwise_cons.mp hpc.2).2⟩
      rw [ih hs2]
      constructor
      · rintro ⟨h1, h2⟩
        exact ⟨List.mem_cons_of_mem _ h1, h2⟩
      · rintro ⟨h1, h2⟩
        rcases List.mem_cons.mp h1 with h | h
        · subst h
          exact absurd rfl (ne_of_strLt h2).symm
        · exact ⟨h, h2⟩
    · rename_i hne
      have hab2 : strLt a b = true := strLt_of_le_of_ne hab hne
      constructor
      · intro hx
        rcases List.mem_cons.mp hx with h | h
        · subst h
          exact ⟨List.mem_cons_self _ _, hab2⟩
        · refine ⟨List.mem_cons_of_mem _ h, ?_⟩
          have hbx : strLe b x = true := (List.pairwise_cons.mp hpc.2).1 x h
          exact strLt_of_lt_of_le hab2 hbx
      · rintro ⟨h1, _⟩
        exact h1

theorem cleanupLoop_spec : ∀ (l : List String), PkgSorted l →
    PkgSorted (cleanupLoop l 0) ∧ (cleanupLoop l 0).Nodup ∧
      (∀ x, x ∈ cleanupLoop l 0 ↔ x ∈ l) := by
  intro l hs
  match l with
  | [] =>
    rw [cleanupLoop.eq_def]
    simp [PkgSorted]
  | a :: l =>
    rw [cleanupLoop_zero]
    by_cases hl : l = []
    · subst hl
      simp [PkgSorted]
    · rw [if_neg hl]
      have htail : PkgSorted l := (List.pairwise_cons.mp hs).2
      have hstrips : PkgSorted (stripLeadingEq a l) :=
        List.Pairwise.sublist (stripLeadingEq_sublist a l) htail
      have hlen : (stripLeadingEq a l).length < (a :: l).length := by
        have := (stripLeadingEq_sublist a l).length_le
        simp
        omega
      obtain ⟨ihs, ihn, ihm⟩ := cleanupLoop_spec (stripLeadingEq a l) hstrips
      have hmemC : ∀ x, x ∈ cleanupLoop (stripLeadingEq a l) 0 → strLt a x = true := by
        intro x hx
        exact ((mem_stripLeadingEq hs).mp ((ihm x).mp hx)).2
      refine ⟨?_, ?_, ?_⟩
      · unfold PkgSorted
        rw [List.pairwise_cons]
        exact ⟨fun y hy => strLe_of_lt (hmemC y hy), ihs⟩
      · rw [List.nodup_cons]
        refine ⟨fun hmem => ?_, ihn⟩
        have := hmemC a hmem
        rw [strLt_irrefl] at this
        exact Bool.false_ne_true this
      · intro x
        rw [List.mem_cons, ihm x, mem_stripLeadingEq hs, List.mem_cons]
        constructor
        · rintro (h | ⟨h1, h2⟩)
          · exact Or.inl h
          · exact Or.inr h1
        · rintro (h | h)
          · exact Or.inl h
          · by_cases hxa : x = a
            · exact Or.inl hxa
            · refine Or.inr ⟨h, ?_⟩
              have hle : strLe a x = true := (List.pairwise_cons.mp hs).1 x h
              exact strLt_of_le_of_ne hle (fun he => hxa he.symm)
termination_by l => l.length

/-- Claim C9: `cleanup_package_list` is total only on non-empty lists: for
every non-empty input it returns the sorted, duplicate-free list (with the
same members), but on an empty input the Rust loop bound `l.len() - 1`
underflows the unsigned length (modelled by the `none` result), so
resolving a config file that yields no package lines does not return an
empty declared state normally. -/
theorem cleanup_package_list_spec :
    (∀ l : List String, l ≠ [] → ∃ r, cleanup_package_list l = some r ∧
      PkgSorted r ∧ r.Nodup ∧ (∀ x, x ∈ r ↔ x ∈ l)) ∧
    cleanup_package_list [] = none ∧
    (∀ s : ThreeStateSyncronizer,
      parse_config_lines s.global_config.comment_string s.rendered_config = [] →
      get_current_config_state s = none) := by
  refine ⟨?_, rfl, ?_⟩
  · intro l hl
    have hlen : (sortStrings l).length = l.length := (sortStrings_perm l).length_eq
    have hne : (sortStrings l).length ≠ 0 := by
      rw [hlen]
      exact fun hc => hl (List.length_eq_zero.mp hc)
    obtain ⟨hs, hn, hm⟩ := cleanupLoop_spec (sortStrings l) (sortStrings_sorted l)
    refine ⟨cleanupLoop (sortStrings l) 0, ?_, hs, hn, ?_⟩
    · rw [cleanup_package_list]
      simp only [hne, if_false]
    · intro x
      rw [hm x, mem_sortStrings]
  · intro s hp
    rw [get_current_config_state, hp]
    rfl

/-- Concrete instantiation of `cleanup_package_list_spec`: a list with a
duplicate is cleaned into a sorted duplicate-free list. -/
theorem cleanup_package_list_spec_witness :
    ∃ r, cleanup_package_list ["b", "a", "b"] = some r ∧
      PkgSorted r ∧ r.Nodup ∧ (∀ x, x ∈ r ↔ x ∈ ["b", "a", "b"]) :=
  cleanup_package_list_spec.1 ["b", "a", "b"] (by decide)

theorem teraStringArr_map (l : List String) :
    teraStringArr (l.map TeraValue.str) = some l := by
  induction l with
  | nil => rfl
  | cons a rest ih => simp [teraStringArr, ih]

/-- Claim C10: `compare_lists_only_in_first` and `compare_lists_in_both`
decide membership by binary search on the second list, so for every first
list and every sorted second list they return exactly the elements of the
first list absent from (respectively present in) the second, preserving the
first list's order and multiplicity (they are filters of the first list);
and the group macro passes the user-supplied except-list to
`compare_lists_only_in_first` as written, without sorting it. -/
theorem compare_lists_correct :
    (∀ l1 l2 : List String, PkgSorted l2 →
      compare_lists_only_in_first l1 l2 = l1.filter (fun x => decide (x ∉ l2)) ∧
      compare_lists_in_both l1 l2 = l1.filter (fun x => decide (x ∈ l2))) ∧
    (∀ (cmd : List String) (env : Env) (g out : String) (exlist : List String),
      cmd ≠ [] → env.queryOut (cmd ++ [g]) = some out →
      get_group_packages cmd env (some (TeraValue.str g))
          (some (TeraValue.arr (exlist.map TeraValue.str))) =
        ([Event.queried (cmd ++ [g])],
          some (String.intercalate "\n"
            (compare_lists_only_in_first (sortStrings (rustLines out)) exlist)))) := by
  constructor
  · intro l1 l2 hs
    exact ⟨compare_lists_only_in_first_eq hs, compare_lists_in_both_eq hs⟩
  · intro cmd env g out exlist hc hq
    have hget : get_packages_from_command_with_list env cmd [g] =
        ([Event.queried (cmd ++ [g])], some (sortStrings (rustLines out))) := by
      rw [get_packages_from_command_with_list]
      simp [hc, hq]
    rw [get_group_packages, hget]
    simp [teraStringArr_map]

/-- Concrete instantiation of `compare_lists_correct`: distinguishing the
two comparison functions on a sorted second list, and the group macro with
an unsorted except-list. -/
theorem compare_lists_correct_witness :
    (compare_lists_only_in_first ["c", "a", "c"] ["a", "b"] =
        List.filter (fun x => decide (x ∉ ["a", "b"])) ["c", "a", "c"] ∧
      compare_lists_in_both ["c", "a", "c"] ["a", "b"] =
        List.filter (fun x => decide (x ∈ ["a", "b"])) ["c", "a", "c"]) ∧
    get_group_packages ["pacman", "-Sqg"]
        (Env.mk (fun _ => true)
          (fun c => if c = ["pacman", "-Sqg", "base"] then some "b\nvim\na\n" else none))
        (some (TeraValue.str "base"))
        (some (TeraValue.arr (["vim", "a"].map TeraValue.str))) =
      ([Event.queried ["pacman", "-Sqg", "base"]],
        some (String.intercalate "\n"
          (compare_lists_only_in_first (sortStrings (rustLines "b\nvim\na\n"))
            ["vim", "a"]))) :=
  ⟨compare_lists_correct.1 ["c", "a", "c"] ["a", "b"] (by decide),
    compare_lists_correct.2 ["pacman", "-Sqg"]
      (Env.mk (fun _ => true)
        (fun c => if c = ["pacman", "-Sqg", "base"] then some "b\nvim\na\n" else none))
      "base" "b\nvim\na\n" ["vim", "a"] (by decide) rfl⟩

/-- Formalization of claim C4 as stated: for every query command, the
package list returned by the query runner would be sorted, duplicate-free,
and consist exactly of the non-empty lines of the command's standard
output after trimming each line. -/
def query_runner_claim : Prop :=
  ∀ (env : Env) (cmd : List String) (out : String),
    cmd ≠ [] → env.queryOut cmd = some out →
    ∃ r, (get_packages_from_command env cmd).2 = some r ∧
      PkgSorted r ∧ r.Nodup ∧
      (∀ x, x ∈ r ↔ ∃ line ∈ rustLines out, rustTrim line = x ∧ x ≠ "")

/-- Claim C4 as stated is false on the code: `get_packages_from_command`
only sorts; on standard output `"b\na\na\n"` the returned list
`["a", "a", "b"]` keeps the duplicate, which the claim's dedup requirement
forbids (and lines are likewise not trimmed nor filtered of empties). -/
theorem query_runner_claim_false : ¬ query_runner_claim := by
  intro h
  obtain ⟨r, hr, hsort, hnodup, hmem⟩ :=
    h (Env.mk (fun _ => true) (fun _ => some "b\na\na\n")) ["q"] "b\na\na\n"
      (by decide) rfl
  have hval : (get_packages_from_command
      (Env.mk (fun _ => true) (fun _ => some "b\na\na\n")) ["q"]).2 =
      some ["a", "a", "b"] := rfl
  obtain rfl : r = ["a", "a", "b"] := (Option.some.inj (hval.symm.trans hr)).symm
  exact absurd hnodup (by decide)

/-- Claim C4 amended: the package list returned by the query runner is the
command's standard-output line list sorted — a sorted permutation of the
raw lines, with duplicates, surrounding whitespace and interior empty
lines preserved as they appear in the output. -/
theorem get_packages_from_command_sorted :
    ∀ (env : Env) (cmd : List String) (out : String),
      cmd ≠ [] → env.queryOut cmd = some out →
      get_packages_from_command env cmd =
        ([Event.queried cmd], some (sortStrings (rustLines out))) ∧
      PkgSorted (sortStrings (rustLines out)) ∧
      (sortStrings (rustLines out)).Perm (rustLines out) :=
  fun _ _ _ hc h => ⟨get_packages_eq hc h, sortStrings_sorted _, sortStrings_perm _⟩

/-- Concrete instantiation of `get_packages_from_command_sorted`. -/
theorem get_packages_from_command_sorted_witness :
    get_packages_from_command
        (Env.mk (fun _ => true) (fun _ => some "b\na\na\n")) ["q"] =
      ([Event.queried ["q"]], some (sortStrings (rustLines "b\na\na\n"))) ∧
    PkgSorted (sortStrings (rustLines "b\na\na\n")) ∧
    (sortStrings (rustLines "b\na\na\n")).Perm (rustLines "b\na\na\n") :=
  get_packages_from_command_sorted
    (Env.mk (fun _ => true) (fun _ => some "b\na\na\n")) ["q"] "b\na\na\n"
    (by decide) rfl

/-- Claim C5 (on the spec-modelled resolver): whenever the literal packages
list and the blacklist overlap, `resolve` fails with the blacklist-conflict
error, and the check runs before any group expansion or querying: the
emitted event list is empty, so no query-runner or command-runner
invocation occurs. -/
theorem resolve_blacklist_conflict :
    ∀ (cfg : DeclaredConfig) (env : Env) (cmd : List String) (x : String),
      x ∈ cfg.packages → x ∈ cfg.blacklist →
      ∃ names, resolve cfg env cmd =
        ([], Except.error (ResolveError.blacklistConflict names)) ∧ names ≠ [] := by
  intro cfg env cmd x hp hb
  have hmem : x ∈ compare_lists_in_both cfg.packages (sortStrings cfg.blacklist) :=
    (mem_compare_both (sortStrings_sorted _)).mpr ⟨hp, mem_sortStrings.mpr hb⟩
  have hne : compare_lists_in_both cfg.packages (sortStrings cfg.blacklist) ≠ [] := by
    intro hc
    rw [hc] at hmem
    exact absurd hmem (List.not_mem_nil x)
  refine ⟨compare_lists_in_both cfg.packages (sortStrings cfg.blacklist), ?_, hne⟩
  rw [resolve]
  simp only [ne_eq, hne, not_false_eq_true, if_true]

/-- Concrete instantiation of `resolve_blacklist_conflict`: the spec's
hard-fail example packages = {a}, blacklist = {a}. -/
theorem resolve_blacklist_conflict_witness :
    ∃ names, resolve (DeclaredConfig.mk ["a"] ["base"] ["a"])
        (Env.mk (fun _ => true) (fun _ => some "x\n")) ["pacman", "-Sqg"] =
      ([], Except.error (ResolveError.blacklistConflict names)) ∧ names ≠ [] :=
  resolve_blacklist_conflict (DeclaredConfig.mk ["a"] ["base"] ["a"])
    (Env.mk (fun _ => true) (fun _ => some "x\n")) ["pacman", "-Sqg"] "a"
    (by decide) (by decide)

/-- Whether an event is a command-runner process invocation. -/
def isRan : Event → Bool
  | Event.ran _ => true
  | _ => false

/-- Whether an event is a line printed on standard output. -/
def isPrinted : Event → Bool
  | Event.printed _ => true
  | _ => false

/-- Whether an event is a query-runner process invocation. -/
def isQueried : Event → Bool
  | Event.queried _ => true
  | _ => false

theorem run_command_dry (g : GlobalConfig) (env : Env) (cmd : List String)
    (h : g.dry_mode = true) :
    (∀ e ∈ (run_command g env cmd).1, isRan e = false) ∧
      (run_command g env cmd).2 = true := by
  rw [run_command]
  by_cases hc : cmd = []
  · simp [hc, isRan]
  · simp only [hc, if_false, h, if_true]
    constructor
    · intro e he
      split at he
      · simp only [List.mem_singleton] at he
        subst he
        rfl
      · exact absurd he (List.not_mem_nil e)
    · trivial

theorem run_command_with_list_dry (g : GlobalConfig) (env : Env)
    (cmd list : List String) (h : g.dry_mode = true) :
    (∀ e ∈ (run_command_with_list g env cmd list).1, isRan e = false) ∧
      (run_command_with_list g env cmd list).2 = true := by
  rw [run_command_with_list]
  by_cases hc : cmd = [] ∨ list = []
  · simp [hc, isRan]
  · simp only [hc, if_false, h, if_true]
    constructor
    · intro e he
      split at he
      · simp only [List.mem_singleton] at he
        subst he
        rfl
      · exact absurd he (List.not_mem_nil e)
    · trivial

theorem get_packages_no_ran (env : Env) (cmd : List String) :
    ∀ e ∈ (get_packages_from_command env cmd).1, isRan e = false := by
  rw [get_packages_from_command]
  by_cases hc : cmd = []
  · simp [hc]
  · simp only [hc, if_false]
    cases env.queryOut cmd <;> simp [isRan]

theorem report_no_ran (g : GlobalConfig) (msg : String) (objects : List String)
    (sep : String) : ∀ e ∈ report g msg objects sep, isRan e = false := by
  rw [report]
  split
  · simp
  · split
    · simp
    · simp [isRan]

theorem up_diff_sync_dry (d : ThreeStateUpDiff) (env : Env)
    (h : d.parent_sync.global_config.dry_mode = true) :
    (∀ e ∈ (up_diff_sync d env).1, isRan e = false) ∧
      (up_diff_sync d env).2 = true := by
  have h1 := run_command_with_list_dry d.parent_sync.global_config env
    d.parent_sync.as_explicit_cmd d.to_mark_explicit h
  have h2 := run_command_with_list_dry d.parent_sync.global_config env
    d.parent_sync.install_cmd d.to_install h
  simp only [up_diff_sync]
  rw [if_pos h1.2]
  refine ⟨?_, h2.2⟩
  intro e he
  rcases List.mem_append.mp he with he | he
  · exact h1.1 e he
  · exact h2.1 e he

theorem down_diff_sync_dry (d : ThreeStateDownDiff) (env : Env)
    (h : d.parent_sync.global_config.dry_mode = true) :
    (∀ e ∈ (down_diff_sync d env).1, isRan e = false) ∧
      (down_diff_sync d env).2 = true := by
  have h1 := run_command_with_list_dry d.parent_sync.global_config env
    d.parent_sync.as_dependency_cmd d.to_mark_dependency h
  have h2 := run_command_with_list_dry d.parent_sync.global_config env
    d.parent_sync.remove_cmd d.to_remove h
  simp only [down_diff_sync]
  rw [if_pos h1.2]
  refine ⟨?_, h2.2⟩
  intro e he
  rcases List.mem_append.mp he with he | he
  · exact h1.1 e he
  · exact h2.1 e he

theorem get_up_diff_parent {s : ThreeStateSyncronizer} {env : Env} {cs : List String}
    {ev : List Event} {d : ThreeStateUpDiff}
    (h : get_up_diff s env cs = (ev, some d)) : d.parent_sync = s := by
  rw [get_up_diff] at h
  rcases hp1 : get_packages_from_command env s.installed_packages_cmd with ⟨e1, r1⟩
  rw [hp1] at h
  cases r1 with
  | none => simp at h
  | some v1 =>
    rcases hp2 : get_packages_from_command env s.dependency_packages_cmd with ⟨e2, r2⟩
    rw [hp2] at h
    cases r2 with
    | none => simp at h
    | some v2 =>
      simp only [Prod.mk.injEq, Option.some.injEq] at h
      rw [← h.2]

theorem get_down_diff_parent {s : ThreeStateSyncronizer} {env : Env} {cs : List String}
    {ev : List Event} {d : ThreeStateDownDiff}
    (h : get_down_diff s env cs = (ev, some d)) : d.parent_sync = s := by
  rw [get_down_diff] at h
  rcases hp1 : get_packages_from_command env s.explicitly_installed_cmd with ⟨e1, r1⟩
  rw [hp1] at h
  cases r1 with
  | none => simp at h
  | some v1 =>
    rcases hp2 : get_packages_from_command env s.explicitly_unrequired_cmd with ⟨e2, r2⟩
    rw [hp2] at h
    cases r2 with
    | none => simp at h
    | some v2 =>
      simp only [Prod.mk.injEq, Option.some.injEq] at h
      rw [← h.2]

theorem get_up_diff_no_ran (s : ThreeStateSyncronizer) (env : Env)
    (cs : List String) : ∀ e ∈ (get_up_diff s env cs).1, isRan e = false := by
  have hq1 := get_packages_no_ran env s.installed_packages_cmd
  have hq2 := get_packages_no_ran env s.dependency_packages_cmd
  rw [get_up_diff]
  rcases hp1 : get_packages_from_command env s.installed_packages_cmd with ⟨e1, r1⟩
  rw [hp1] at hq1
  cases r1 with
  | none => exact hq1
  | some v1 =>
    rcases hp2 : get_packages_from_command env s.dependency_packages_cmd with ⟨e2, r2⟩
    rw [hp2] at hq2
    cases r2 with
    | none =>
      show ∀ e ∈ e1 ++ e2, isRan e = false
      intro e he
      rcases List.mem_append.mp he with he | he
      · exact hq1 e he
      · exact hq2 e he
    | some v2 =>
      show ∀ e ∈ e1 ++ e2, isRan e = false
      intro e he
      rcases List.mem_append.mp he with he | he
      · exact hq1 e he
      · exact hq2 e he

theorem get_down_diff_no_ran (s : ThreeStateSyncronizer) (env : Env)
    (cs : List String) : ∀ e ∈ (get_down_diff s env cs).1, isRan e = false := by
  have hq1 := get_packages_no_ran env s.explicitly_installed_cmd
  have hq2 := get_packages_no_ran env s.explicitly_unrequired_cmd
  rw [get_down_diff]
  rcases hp1 : get_packages_from_command env s.explicitly_installed_cmd with ⟨e1, r1⟩
  rw [hp1] at hq1
  cases r1 with
  | none => exact hq1
  | some v1 =>
    rcases hp2 : get_packages_from_command env s.explicitly_unrequired_cmd with ⟨e2, r2⟩
    rw [hp2] at hq2
    cases r2 with
    | none =>
      show ∀ e ∈ e1 ++ e2, isRan e = false
      intro e he
      rcases List.mem_append.mp he with he | he
      · exact hq1 e he
      · exact hq2 e he
    | some v2 =>
      show ∀ e ∈ e1 ++ e2, isRan e = false
      intro e he
      rcases List.mem_append.mp he with he | he
      · exact hq1 e he
      · exact hq2 e he

theorem sync_up_no_ran_dry (s : ThreeStateSyncronizer) (env : Env) (cs : List String)
    (h : s.global_config.dry_mode = true) :
    ∀ e ∈ (sync_up s env cs).1, isRan e = false := by
  have hq := get_up_diff_no_ran s env cs
  rw [sync_up]
  rcases hp : get_up_diff s env cs with ⟨ev, r⟩
  rw [hp] at hq
  cases r with
  | none => exact hq
  | some d =>
    have hd : d.parent_sync = s := get_up_diff_parent hp
    have hsync := up_diff_sync_dry d env (by rw [hd]; exact h)
    have hrep := report_no_ran d.parent_sync.global_config
      d.parent_sync.to_install_report_msg d.to_install ", "
    have hrep2 := report_no_ran d.parent_sync.global_config
      d.parent_sync.to_mark_explicit_report_msg d.to_mark_explicit ", "
    show ∀ e ∈ ev ++ up_diff_report d ++ (up_diff_sync d env).1, isRan e = false
    intro e he
    rcases List.mem_append.mp he with he | he
    · rcases List.mem_append.mp he with he | he
      · exact hq e he
      · rcases List.mem_append.mp he with he | he
        · exact hrep e he
        · exact hrep2 e he
    · exact hsync.1 e he

theorem sync_down_no_ran_dry (s : ThreeStateSyncronizer) (env : Env) (cs : List String)
    (h : s.global_config.dry_mode = true) :
    ∀ e ∈ (sync_down s env cs).1, isRan e = false := by
  have hq := get_down_diff_no_ran s env cs
  rw [sync_down]
  rcases hp : get_down_diff s env cs with ⟨ev, r⟩
  rw [hp] at hq
  cases r with
  | none => exact hq
  | some d =>
    have hd : d.parent_sync = s := get_down_diff_parent hp
    have hsync := down_diff_sync_dry d env (by rw [hd]; exact h)
    have hrep := report_no_ran d.parent_sync.global_config
      d.parent_sync.to_remove_report_msg d.to_remove ", "
    have hrep2 := report_no_ran d.parent_sync.global_config
      d.parent_sync.to_mark_dependency_report_msg d.to_mark_dependency ", "
    show ∀ e ∈ ev ++ down_diff_report d ++ (down_diff_sync d env).1, isRan e = false
    intro e he
    rcases List.mem_append.mp he with he | he
    · rcases List.mem_append.mp he with he | he
      · exact hq e he
      · rcases List.mem_append.mp he with he | he
        · exact hrep e he
        · exact hrep2 e he
    · exact hsync.1 e he

theorem post_sync_no_ran_dry (s : ThreeStateSyncronizer) (env : Env)
    (h : s.global_config.dry_mode = true) :
    ∀ e ∈ (post_sync s env).1, isRan e = false := by
  have hq := get_packages_no_ran env s.get_orphans_cmd
  rw [post_sync]
  rcases hp : get_packages_from_command env s.get_orphans_cmd with ⟨ev, r⟩
  rw [hp] at hq
  cases r with
  | none => exact hq
  | some orphans =>
    have hr := run_command_with_list_dry s.global_config env s.remove_cmd orphans h
    show ∀ e ∈ ev ++ (run_command_with_list s.global_config env s.remove_cmd orphans).1,
      isRan e = false
    intro e he
    rcases List.mem_append.mp he with he | he
    · exact hq e he
    · exact hr.1 e he

theorem get_packages_total (env : Env) (c : List String)
    (hq : ∀ cmd, env.queryOut cmd ≠ none) :
    ∃ ev v, get_packages_from_command env c = (ev, some v) := by
  by_cases hc : c = []
  · exact ⟨[], [], by rw [get_packages_from_command]; simp [hc]⟩
  · cases hv : env.queryOut c with
    | none => exact absurd hv (hq c)
    | some out =>
      exact ⟨[Event.queried c], sortStrings (rustLines out),
        by rw [get_packages_from_command]; simp [hc, hv]⟩

theorem get_up_diff_some (s : ThreeStateSyncronizer) (env : Env) (cs : List String)
    (hq : ∀ c, env.queryOut c ≠ none) :
    ∃ ev d, get_up_diff s env cs = (ev, some d) := by
  obtain ⟨e1, v1, h1⟩ := get_packages_total env s.installed_packages_cmd hq
  obtain ⟨e2, v2, h2⟩ := get_packages_total env s.dependency_packages_cmd hq
  exact ⟨e1 ++ e2, _, by rw [get_up_diff, h1, h2]⟩

theorem get_down_diff_some (s : ThreeStateSyncronizer) (env : Env) (cs : List String)
    (hq : ∀ c, env.queryOut c ≠ none) :
    ∃ ev d, get_down_diff s env cs = (ev, some d) := by
  obtain ⟨e1, v1, h1⟩ := get_packages_total env s.explicitly_installed_cmd hq
  obtain ⟨e2, v2, h2⟩ := get_packages_total env s.explicitly_unrequired_cmd hq
  exact ⟨e1 ++ e2, _, by rw [get_down_diff, h1, h2]⟩

theorem sync_up_dry_true (s : ThreeStateSyncronizer) (env : Env) (cs : List String)
    (h : s.global_config.dry_mode = true) (hq : ∀ c, env.queryOut c ≠ none) :
    (sync_up s env cs).2 = true := by
  obtain ⟨ev, d, hd⟩ := get_up_diff_some s env cs hq
  rw [sync_up, hd]
  show (up_diff_sync d env).2 = true
  exact (up_diff_sync_dry d env (by rw [get_up_diff_parent hd]; exact h)).2

theorem sync_down_dry_true (s : ThreeStateSyncronizer) (env : Env) (cs : List String)
    (h : s.global_config.dry_mode = true) (hq : ∀ c, env.queryOut c ≠ none) :
    (sync_down s env cs).2 = true := by
  obtain ⟨ev, d, hd⟩ := get_down_diff_some s env cs hq
  rw [sync_down, hd]
  show (down_diff_sync d env).2 = true
  exact (down_diff_sync_dry d env (by rw [get_down_diff_parent hd]; exact h)).2

theorem post_sync_dry_true (s : ThreeStateSyncronizer) (env : Env)
    (h : s.global_config.dry_mode = true) (hq : ∀ c, env.queryOut c ≠ none) :
    (post_sync s env).2 = true := by
  obtain ⟨ev, v, hv⟩ := get_packages_total env s.get_orphans_cmd hq
  rw [post_sync, hv]
  show (run_command_with_list s.global_config env s.remove_cmd v).2 = true
  exact (run_command_with_list_dry s.global_config env s.remove_cmd v h).2

theorem sync_up_down_no_ran_dry (s : ThreeStateSyncronizer) (env : Env)
    (h : s.global_config.dry_mode = true) :
    ∀ e ∈ (sync_up_down s env).1, isRan e = false := by
  have h0 : ∀ e ∈ (pre_sync s env).1, isRan e = false :=
    (run_command_dry s.global_config env s.update_cmd h).1
  intro e he
  simp only [sync_up_down] at he
  split at he
  · split at he
    · exact h0 e he
    · rename_i cs hcs
      split at he
      · split at he
        · rcases List.mem_append.mp he with he | he
          · rcases List.mem_append.mp he with he | he
            · rcases List.mem_append.mp he with he | he
              · exact h0 e he
              · exact sync_up_no_ran_dry s env cs h e he
            · exact sync_down_no_ran_dry s env cs h e he
          · exact post_sync_no_ran_dry s env h e he
        · rcases List.mem_append.mp he with he | he
          · rcases List.mem_append.mp he with he | he
            · exact h0 e he
            · exact sync_up_no_ran_dry s env cs h e he
          · exact sync_down_no_ran_dry s env cs h e he
      · rcases List.mem_append.mp he with he | he
        · exact h0 e he
        · exact sync_up_no_ran_dry s env cs h e he
  · exact h0 e he

theorem sync_up_down_dry_true (s : ThreeStateSyncronizer) (env : Env)
    (h : s.global_config.dry_mode = true) (hq : ∀ c, env.queryOut c ≠ none)
    (hcs : get_current_config_state s ≠ none) :
    (sync_up_down s env).2 = true := by
  obtain ⟨cs, hcseq⟩ := Option.ne_none_iff_exists.mp hcs
  have h0 : (pre_sync s env).2 = true :=
    (run_command_dry s.global_config env s.update_cmd h).2
  have h1 := sync_up_dry_true s env cs h hq
  have h2 := sync_down_dry_true s env cs h hq
  have h3 := post_sync_dry_true s env h hq
  simp only [sync_up_down, h0, if_true, ← hcseq, h1, h2]
  exact h3

theorem cleanup_single (a : String) : cleanup_package_list [a] = some [a] := by
  have h1 : cleanup_package_list [a] = some (cleanupLoop [a] 0) := rfl
  rw [h1, cleanupLoop_zero]
  simp

/-- Formalization of claim C8 as stated: with dry-run enabled, every
(non-empty) command is printed, the command runner never invokes an
external process (no system state is mutated), and the run reports success
regardless of the diff contents. -/
def dry_run_claim : Prop :=
  (∀ (g : GlobalConfig) (env : Env) (cmd : List String),
    g.dry_mode = true → cmd ≠ [] →
    (run_command g env cmd).1.any isPrinted = true ∧
    (run_command g env cmd).1.any isRan = false ∧
    (run_command g env cmd).2 = true) ∧
  (∀ (s : ThreeStateSyncronizer) (env : Env),
    s.global_config.dry_mode = true → (sync_up_down s env).2 = true)

/-- Claim C8 as stated is false on the code at two concrete points: with
`show_cmds` and `show_cmds_in_dry_mode` both unset, a dry run prints
nothing; and a dry run whose query commands fail reports failure (queries
are not suppressed by dry mode), exhibited by the second conjunct. -/
theorem dry_run_claim_false :
    ¬ dry_run_claim ∧
    (sync_up_down
        (pacman_default_config GlobalConfig.default "a\n")
        (Env.mk (fun _ => true) (fun _ => none))).2 = false := by
  have hcs : get_current_config_state (pacman_default_config GlobalConfig.default "a\n") =
      some ["a"] := by
    rw [get_current_config_state]
    rw [show parse_config_lines
      (pacman_default_config GlobalConfig.default "a\n").global_config.comment_string
      (pacman_default_config GlobalConfig.default "a\n").rendered_config = ["a"] from rfl]
    exact cleanup_single "a"
  have hfail : (sync_up_down
      (pacman_default_config GlobalConfig.default "a\n")
      (Env.mk (fun _ => true) (fun _ => none))).2 = false := by
    simp only [sync_up_down, hcs]
    rfl
  refine ⟨?_, hfail⟩
  intro h
  have hprint := (h.1 (GlobalConfig.mk true false false true "sudo" true true "#")
    (Env.mk (fun _ => true) (fun _ => some "")) ["x"] rfl (by decide)).1
  exact absurd hprint (by decide)

/-- Claim C8 amended: with dry-run enabled the command runner never
invokes an external process (the apply steps emit no process-run events and
always report success); a non-empty command is printed provided command
display is enabled (`show_cmds` or `show_cmds_in_dry_mode`); the whole run
trace contains no process-run events (no system state is mutated), and the
run reports success provided every query command succeeds and the declared
config resolves (queries still execute, and fail the run, in dry mode). -/
theorem dry_run_behavior :
    (∀ (g : GlobalConfig) (env : Env) (cmd : List String), g.dry_mode = true →
      (∀ e ∈ (run_command g env cmd).1, isRan e = false) ∧
      (run_command g env cmd).2 = true ∧
      (cmd ≠ [] → (g.show_cmds || g.show_cmds_in_dry_mode) = true →
        (run_command g env cmd).1.any isPrinted = true)) ∧
    (∀ (g : GlobalConfig) (env : Env) (cmd list : List String), g.dry_mode = true →
      (∀ e ∈ (run_command_with_list g env cmd list).1, isRan e = false) ∧
      (run_command_with_list g env cmd list).2 = true ∧
      (¬ (cmd = [] ∨ list = []) → (g.show_cmds || g.show_cmds_in_dry_mode) = true →
        (run_command_with_list g env cmd list).1.any isPrinted = true)) ∧
    (∀ (s : ThreeStateSyncronizer) (env : Env), s.global_config.dry_mode = true →
      (∀ e ∈ (sync_up_down s env).1, isRan e = false) ∧
      ((∀ c, env.queryOut c ≠ none) → get_current_config_state s ≠ none →
        (sync_up_down s env).2 = true)) := by
  refine ⟨?_, ?_, ?_⟩
  · intro g env cmd h
    refine ⟨(run_command_dry g env cmd h).1, (run_command_dry g env cmd h).2, ?_⟩
    intro hc hflag
    rw [run_command]
    simp only [hc, if_false, h]
    simp [hflag, isPrinted]
  · intro g env cmd list h
    refine ⟨(run_command_with_list_dry g env cmd list h).1,
      (run_command_with_list_dry g env cmd list h).2, ?_⟩
    intro hc hflag
    rw [run_command_with_list]
    simp only [hc, if_false, h]
    simp [hflag, isPrinted]
  · intro s env h
    exact ⟨sync_up_down_no_ran_dry s env h,
      fun hq hcs => sync_up_down_dry_true s env h hq hcs⟩

/-- Concrete instantiation of `dry_run_behavior`: the default (dry)
configuration on a one-package config file with all queries succeeding. -/
theorem dry_run_behavior_witness :
    (∀ e ∈ (run_command GlobalConfig.default
      (Env.mk (fun _ => true) (fun _ => some "")) ["pacman", "-Syu"]).1,
        isRan e = false) ∧
    (run_command GlobalConfig.default
      (Env.mk (fun _ => true) (fun _ => some "")) ["pacman", "-Syu"]).2 = true ∧
    (∀ e ∈ (sync_up_down (pacman_default_config GlobalConfig.default "a\n")
      (Env.mk (fun _ => true) (fun _ => some ""))).1, isRan e = false) ∧
    (sync_up_down (pacman_default_config GlobalConfig.default "a\n")
      (Env.mk (fun _ => true) (fun _ => some ""))).2 = true := by
  have h1 := dry_run_behavior.1 GlobalConfig.default
    (Env.mk (fun _ => true) (fun _ => some "")) ["pacman", "-Syu"] rfl
  have h3 := dry_run_behavior.2.2 (pacman_default_config GlobalConfig.default "a\n")
    (Env.mk (fun _ => true) (fun _ => some "")) rfl
  have hcs : get_current_config_state (pacman_default_config GlobalConfig.default "a\n") =
      some ["a"] := by
    rw [get_current_config_state]
    rw [show parse_config_lines
      (pacman_default_config GlobalConfig.default "a\n").global_config.comment_string
      (pacman_default_config GlobalConfig.default "a\n").rendered_config = ["a"] from rfl]
    exact cleanup_single "a"
  exact ⟨h1.1, h1.2.1, h3.1,
    h3.2 (fun c => by simp) (by rw [hcs]; exact fun hc => Option.noConfusion hc)⟩

/-- Claim C7: in every run, within the up-sync phase the mark-explicit
command is applied before the install command, and within the down-sync
phase the mark-dependency command is applied before the remove command.
Under the hypotheses that make both commands of a phase execute (live
mode, non-empty command vectors and lists, first command succeeding) the
apply trace is exactly: optional echo of the mark command, its process
run, optional echo of the second command, its process run — in that
order. -/
theorem apply_order :
    (∀ (d : ThreeStateUpDiff) (env : Env),
      d.parent_sync.global_config.dry_mode = false →
      ¬ (d.parent_sync.as_explicit_cmd = [] ∨ d.to_mark_explicit = []) →
      ¬ (d.parent_sync.install_cmd = [] ∨ d.to_install = []) →
      env.runOk (d.parent_sync.as_explicit_cmd ++ d.to_mark_explicit) = true →
      up_diff_sync d env =
        ((if d.parent_sync.global_config.show_cmds then
            [Event.printed ("> " ++ String.intercalate " " d.parent_sync.as_explicit_cmd
              ++ " " ++ String.intercalate " " d.to_mark_explicit)] else []) ++
          [Event.ran (d.parent_sync.as_explicit_cmd ++ d.to_mark_explicit)] ++
          ((if d.parent_sync.global_config.show_cmds then
            [Event.printed ("> " ++ String.intercalate " " d.parent_sync.install_cmd
              ++ " " ++ String.intercalate " " d.to_install)] else []) ++
          [Event.ran (d.parent_sync.install_cmd ++ d.to_install)]),
          env.runOk (d.parent_sync.install_cmd ++ d.to_install))) ∧
    (∀ (d : ThreeStateDownDiff) (env : Env),
      d.parent_sync.global_config.dry_mode = false →
      ¬ (d.parent_sync.as_dependency_cmd = [] ∨ d.to_mark_dependency = []) →
      ¬ (d.parent_sync.remove_cmd = [] ∨ d.to_remove = []) →
      env.runOk (d.parent_sync.as_dependency_cmd ++ d.to_mark_dependency) = true →
      down_diff_sync d env =
        ((if d.parent_sync.global_config.show_cmds then
            [Event.printed ("> " ++ String.intercalate " " d.parent_sync.as_dependency_cmd
              ++ " " ++ String.intercalate " " d.to_mark_dependency)] else []) ++
          [Event.ran (d.parent_sync.as_dependency_cmd ++ d.to_mark_dependency)] ++
          ((if d.parent_sync.global_config.show_cmds then
            [Event.printed ("> " ++ String.intercalate " " d.parent_sync.remove_cmd
              ++ " " ++ String.intercalate " " d.to_remove)] else []) ++
          [Event.ran (d.parent_sync.remove_cmd ++ d.to_remove)]),
          env.runOk (d.parent_sync.remove_cmd ++ d.to_remove))) := by
  constructor
  · intro d env h hne1 hne2 hrun
    simp only [up_diff_sync, run_command_with_list, hne1, hne2, if_false, h,
      Bool.false_and, Bool.or_false, hrun, if_true, Bool.false_eq_true]
  · intro d env h hne1 hne2 hrun
    simp only [down_diff_sync, run_command_with_list, hne1, hne2, if_false, h,
      Bool.false_and, Bool.or_false, hrun, if_true, Bool.false_eq_true]

/-- A live (non-dry) configuration used by the concrete run fixtures, with
command echoing and reports disabled to keep the traces minimal. -/
def live_config : GlobalConfig where
  dry_mode := false
  show_cmds := false
  show_cmds_in_dry_mode := false
  show_reports := false
  sudo_cmd := "sudo"
  error_on_unknown_keys := true
  warn_on_duplicates := true
  comment_string := "#"

/-- Concrete instantiation of `apply_order`: both phases on one-element
lists, every command succeeding. -/
theorem apply_order_witness :
    up_diff_sync
        (ThreeStateUpDiff.mk (pacman_default_config live_config "") ["i"] ["m"])
        (Env.mk (fun _ => true) (fun _ => some "")) =
      ([Event.ran ["sudo", "pacman", "-D", "--asexplicit", "m"],
        Event.ran ["sudo", "pacman", "-S", "i"]], true) ∧
    down_diff_sync
        (ThreeStateDownDiff.mk (pacman_default_config live_config "") ["r"] ["d"])
        (Env.mk (fun _ => true) (fun _ => some "")) =
      ([Event.ran ["sudo", "pacman", "-D", "--asdeps", "d"],
        Event.ran ["sudo", "pacman", "-Rs", "r"]], true) := by
  constructor
  · have h := apply_order.1
      (ThreeStateUpDiff.mk (pacman_default_config live_config "") ["i"] ["m"])
      (Env.mk (fun _ => true) (fun _ => some ""))
      rfl (by decide) (by decide) rfl
    rw [h]
    rfl
  · have h := apply_order.2
      (ThreeStateDownDiff.mk (pacman_default_config live_config "") ["r"] ["d"])
      (Env.mk (fun _ => true) (fun _ => some ""))
      rfl (by decide) (by decide) rfl
    rw [h]
    rfl

/-- Claim C6: if any command of a phase fails, all remaining phases are
skipped immediately — in particular a failing up-sync phase (e.g. its
install command) means the down-sync phase never executes, and a failing
mark command within a phase prevents that phase's second command — while
the events of commands that already executed remain exactly as emitted:
the run result is the unmodified concatenation of the executed steps'
traces, with no rollback. -/
theorem fail_fast (s : ThreeStateSyncronizer) (env : Env) :
    ((pre_sync s env).2 = false → sync_up_down s env = ((pre_sync s env).1, false)) ∧
    (∀ cs, (pre_sync s env).2 = true → get_current_config_state s = some cs →
      (sync_up s env cs).2 = false →
      sync_up_down s env = ((pre_sync s env).1 ++ (sync_up s env cs).1, false)) ∧
    (∀ cs, (pre_sync s env).2 = true → get_current_config_state s = some cs →
      (sync_up s env cs).2 = true → (sync_down s env cs).2 = false →
      sync_up_down s env =
        ((pre_sync s env).1 ++ (sync_up s env cs).1 ++ (sync_down s env cs).1, false)) ∧
    (∀ d : ThreeStateUpDiff,
      (run_command_with_list d.parent_sync.global_config env
        d.parent_sync.as_explicit_cmd d.to_mark_explicit).2 = false →
      up_diff_sync d env =
        ((run_command_with_list d.parent_sync.global_config env
          d.parent_sync.as_explicit_cmd d.to_mark_explicit).1, false)) ∧
    (∀ d : ThreeStateDownDiff,
      (run_command_with_list d.parent_sync.global_config env
        d.parent_sync.as_dependency_cmd d.to_mark_dependency).2 = false →
      down_diff_sync d env =
        ((run_command_with_list d.parent_sync.global_config env
          d.parent_sync.as_dependency_cmd d.to_mark_dependency).1, false)) := by
  refine ⟨?_, ?_, ?_, ?_, ?_⟩
  · intro h0
    simp only [sync_up_down, h0, Bool.false_eq_true, if_false]
  · intro cs h0 hcs h1
    simp only [sync_up_down, h0, if_true, hcs, h1, Bool.false_eq_true, if_false]
  · intro cs h0 hcs h1 h2
    simp only [sync_up_down, h0, if_true, hcs, h1, h2, Bool.false_eq_true, if_false]
  · intro d h1
    simp only [up_diff_sync, h1, Bool.false_eq_true, if_false]
  · intro d h1
    simp only [down_diff_sync, h1, Bool.false_eq_true, if_false]

/-- Concrete instantiation of `fail_fast`: a live run whose install
command fails; the trace stops right after the failed install and no
down-sync or post-sync event is emitted. -/
theorem fail_fast_witness :
    sync_up_down (pacman_default_config live_config "a\n")
        (Env.mk (fun c => if c = ["sudo", "pacman", "-S", "a"] then false else true)
          (fun _ => some "")) =
      ((pre_sync (pacman_default_config live_config "a\n")
          (Env.mk (fun c => if c = ["sudo", "pacman", "-S", "a"] then false else true)
            (fun _ => some ""))).1 ++
        (sync_up (pacman_default_config live_config "a\n")
          (Env.mk (fun c => if c = ["sudo", "pacman", "-S", "a"] then false else true)
            (fun _ => some "")) ["a"]).1, false) := by
  have hcs : get_current_config_state (pacman_default_config live_config "a\n") =
      some ["a"] := by
    rw [get_current_config_state]
    rw [show parse_config_lines
      (pacman_default_config live_config "a\n").global_config.comment_string
      (pacman_default_config live_config "a\n").rendered_config = ["a"] from rfl]
    exact cleanup_single "a"
  exact (fail_fast (pacman_default_config live_config "a\n")
      (Env.mk (fun c => if c = ["sudo", "pacman", "-S", "a"] then false else true)
        (fun _ => some ""))).2.1 ["a"] rfl hcs rfl

/-- Whether a command vector begins with the given template (an apply
command is the template with the package list appended). -/
def cmdHasLead (lead c : List String) : Bool := c.take lead.length == lead

/-- Whether an event is an up-sync apply run (mark-explicit or install). -/
def isUpApplyRan (s : ThreeStateSyncronizer) : Event → Bool
  | Event.ran c => cmdHasLead s.as_explicit_cmd c || cmdHasLead s.install_cmd c
  | _ => false

/-- Whether an event is a down-sync apply run (mark-dependency or
remove). -/
def isDownApplyRan (s : ThreeStateSyncronizer) : Event → Bool
  | Event.ran c => cmdHasLead s.as_dependency_cmd c || cmdHasLead s.remove_cmd c
  | _ => false

/-- Formalization of claim C3 as stated: within one reconciliation run the
up-diff and down-diff would be computed from the same point-in-time
snapshot, so no system-state query event may occur after an up-sync apply
run and before a down-sync apply run in the trace of `sync_up_down`. -/
def same_snapshot_claim : Prop :=
  ∀ (s : ThreeStateSyncronizer) (env : Env) (i j k : Nat), i < j → j < k →
    ¬ (isUpApplyRan s (((sync_up_down s env).1).getD i (Event.printed "")) = true ∧
       isQueried (((sync_up_down s env).1).getD j (Event.printed "")) = true ∧
       isDownApplyRan s (((sync_up_down s env).1).getD k (Event.printed "")) = true)

/-- The run environment of the C3 fixture: every command succeeds, the
explicitly-installed and explicitly-unrequired queries report package `b`,
all other queries report nothing. -/
def envSnapshot : Env where
  runOk := fun _ => true
  queryOut := fun c =>
    if c = ["pacman", "-Qnqe"] then some "b\n"
    else if c = ["pacman", "-Qnqet"] then some "b\n"
    else some ""

/-- Claim C3 as stated is false on the code: `get_down_diff` re-issues its
two system-state queries after the up-sync commands have been applied. In
the fixture run the trace is pre-sync run, two up queries, the install run
of `a`, the two down queries, the remove run of `b`, the orphan query —
so a query (index 4) sits between an up-sync apply run (index 3) and a
down-sync apply run (index 6). -/
theorem same_snapshot_claim_false : ¬ same_snapshot_claim := by
  intro h
  have hcs : get_current_config_state (pacman_default_config live_config "a\n") =
      some ["a"] := by
    rw [get_current_config_state]
    rw [show parse_config_lines
      (pacman_default_config live_config "a\n").global_config.comment_string
      (pacman_default_config live_config "a\n").rendered_config = ["a"] from rfl]
    exact cleanup_single "a"
  have htr : sync_up_down (pacman_default_config live_config "a\n") envSnapshot =
      ([Event.ran ["sudo", "pacman", "-Syu"],
        Event.queried ["pacman", "-Qnq"],
        Event.queried ["pacman", "-Qnqd"],
        Event.ran ["sudo", "pacman", "-S", "a"],
        Event.queried ["pacman", "-Qnqe"],
        Event.queried ["pacman", "-Qnqet"],
        Event.ran ["sudo", "pacman", "-Rs", "b"],
        Event.queried ["pacman", "-Qnqdt"]], true) := by
    simp only [sync_up_down, hcs]
    rfl
  exact h (pacman_default_config live_config "a\n") envSnapshot 3 4 6
    (by decide) (by decide)
    (by rw [htr]; exact ⟨by decide, by decide, by decide⟩)

theorem get_down_diff_head (s : ThreeStateSyncronizer) (env : Env) (cs : List String)
    (hne : s.explicitly_installed_cmd ≠ []) :
    ∃ rest, (get_down_diff s env cs).1 =
      Event.queried s.explicitly_installed_cmd :: rest := by
  rw [get_down_diff]
  cases hq : env.queryOut s.explicitly_installed_cmd with
  | none =>
    rw [show get_packages_from_command env s.explicitly_installed_cmd =
        ([Event.queried s.explicitly_installed_cmd], none) from
      by rw [get_packages_from_command]; simp [hne, hq]]
    exact ⟨[], rfl⟩
  | some out =>
    rw [get_packages_eq hne hq]
    rcases hp2 : get_packages_from_command env s.explicitly_unrequired_cmd with ⟨e2, r2⟩
    cases r2 with
    | none => exact ⟨e2, rfl⟩
    | some v2 => exact ⟨e2, rfl⟩

/-- Claim C3 amended: the up-diff and the down-diff are computed from
independently issued queries, not from one shared snapshot: in a
successful run the trace decomposes in order into the pre-sync, up-sync,
down-sync and post-sync segments, and the down-sync segment begins with a
fresh explicitly-installed query — issued after the up-sync apply
commands, so up-sync installs are visible to the down-diff within the same
run. -/
theorem diff_queries_independent (s : ThreeStateSyncronizer) (env : Env)
    (cs : List String) :
    (pre_sync s env).2 = true →
    get_current_config_state s = some cs →
    (sync_up s env cs).2 = true →
    (sync_down s env cs).2 = true →
    sync_up_down s env =
      ((pre_sync s env).1 ++ (sync_up s env cs).1 ++ (sync_down s env cs).1 ++
        (post_sync s env).1, (post_sync s env).2) ∧
    (s.explicitly_installed_cmd ≠ [] →
      ∃ rest, (sync_down s env cs).1 =
        Event.queried s.explicitly_installed_cmd :: rest) := by
  intro h0 hcs h1 h2
  constructor
  · simp only [sync_up_down, h0, if_true, hcs, h1, h2]
  · intro hne
    obtain ⟨rest, hrest⟩ := get_down_diff_head s env cs hne
    rw [sync_down]
    rcases hp : get_down_diff s env cs with ⟨ev, r⟩
    rw [hp] at hrest
    cases r with
    | none => exact ⟨rest, hrest⟩
    | some d =>
      show ∃ r2, ev ++ down_diff_report d ++ (down_diff_sync d env).1 =
        Event.queried s.explicitly_installed_cmd :: r2
      rw [show ev = Event.queried s.explicitly_installed_cmd :: rest from hrest]
      exact ⟨rest ++ down_diff_report d ++ (down_diff_sync d env).1, by simp⟩

/-- Concrete instantiation of `diff_queries_independent` on the C3
fixture run. -/
theorem diff_queries_independent_witness :
    sync_up_down (pacman_default_config live_config "a\n") envSnapshot =
      ((pre_sync (pacman_default_config live_config "a\n") envSnapshot).1 ++
        (sync_up (pacman_default_config live_config "a\n") envSnapshot ["a"]).1 ++
        (sync_down (pacman_default_config live_config "a\n") envSnapshot ["a"]).1 ++
        (post_sync (pacman_default_config live_config "a\n") envSnapshot).1,
        (post_sync (pacman_default_config live_config "a\n") envSnapshot).2) ∧
    (["pacman", "-Qnqe"] ≠ ([] : List String) →
      ∃ rest, (sync_down (pacman_default_config live_config "a\n") envSnapshot ["a"]).1 =
        Event.queried ["pacman", "-Qnqe"] :: rest) := by
  have hcs : get_current_config_state (pacman_default_config live_config "a\n") =
      some ["a"] := by
    rw [get_current_config_state]
    rw [show parse_config_lines
      (pacman_default_config live_config "a\n").global_config.comment_string
      (pacman_default_config live_config "a\n").rendered_config = ["a"] from rfl]
    exact cleanup_single "a"
  exact diff_queries_independent (pacman_default_config live_config "a\n")
    envSnapshot ["a"] rfl hcs rfl rfl
